import Mathlib

/-! ERC20 IBC callbacks of the erc20 keeper

A shallow embedding of `x/erc20/keeper/ibc_callbacks.go`.  The keeper reads and
writes an explicit `State`; every collaborator call it makes is appended to a
call log, so that statements of the form "no call is made to ..." can be stated
about the log.  Library functions that are not part of the keeper file are
fields of `Env`.

The methods `transfer`, `transferFrom` and `approve` of the ERC20 precompile,
which `precompiles/erc20/integration_test.go` exercises, are modelled over the
same `State`.
-/

namespace Evmos

/-! ## Data model -/

/-- Bytes of an `sdk.AccAddress`. -/
abbrev AccAddress := List Nat

/-- Bytes of a `common.Address`. -/
abbrev EthAddress := List Nat

/-- An error value: its ABCI code and its message. -/
structure Error where
  code : Nat
  msg : String
deriving DecidableEq, Repr

/-- The sdk error `ErrInvalidType` (code 29 of the sdk codespace). -/
def ErrInvalidType : Error := ⟨29, "invalid type"⟩

/-- The call `errorsmod.Wrapf`: keeps the code of the wrapped error and puts the
description in front of its message. -/
def Wrapf (err : Error) (description : String) : Error :=
  ⟨err.code, description ++ ": " ++ err.msg⟩

/-- The two response variants of a channel acknowledgement. -/
inductive AcknowledgementResponse where
  | Acknowledgement_Result (Result : List Nat)
  | Acknowledgement_Error (Error : String)
deriving DecidableEq, Repr

/-- A channel acknowledgement; `Response` may be nil. -/
structure Acknowledgement where
  Response : Option AcknowledgementResponse
deriving DecidableEq, Repr

/-- The call `channeltypes.NewErrorAcknowledgement`: only the ABCI code of the
error enters the text. -/
def NewErrorAcknowledgement (err : Error) : Acknowledgement :=
  ⟨some (.Acknowledgement_Error
    ("ABCI code: " ++ Nat.repr err.code ++ ": error handling packet: see events for details"))⟩

/-- The type switch `case *channeltypes.Acknowledgement_Error`. -/
def Acknowledgement.isError (ack : Acknowledgement) : Bool :=
  match ack.Response with
  | some (.Acknowledgement_Error _) => true
  | _ => false

/-- The type `transfertypes.FungibleTokenPacketData`. -/
structure FungibleTokenPacketData where
  Denom : String
  Amount : String
  Sender : String
  Receiver : String
  Memo : String
deriving DecidableEq, Repr

/-- The type `channeltypes.Packet`. -/
structure Packet where
  Sequence : Nat
  SourcePort : String
  SourceChannel : String
  DestinationPort : String
  DestinationChannel : String
  Data : List Nat
deriving DecidableEq, Repr

/-- The type `sdk.Coin`. -/
structure Coin where
  Denom : String
  Amount : Nat
deriving DecidableEq, Repr

/-- Modelled from the spec: the type `types.TokenPair` is not under src/; the
spec's AssetPair has an external denomination, a representation address, an
enabled flag and a native-coin flag. -/
structure TokenPair where
  Erc20Address : EthAddress
  Denom : String
  Enabled : Bool
  nativeCoin : Bool
deriving DecidableEq, Repr

/-- Modelled from the spec: `TokenPair.IsNativeCoin` is not under src/; it reads
the native-coin flag of the pair. -/
def TokenPair.IsNativeCoin (pair : TokenPair) : Bool := pair.nativeCoin

/-- Modelled from the spec: `TokenPair.GetERC20Contract` is not under src/; it is
the representation address of the pair. -/
def TokenPair.GetERC20Contract (pair : TokenPair) : EthAddress := pair.Erc20Address

/-- The zero value `types.TokenPair{}`. -/
def TokenPair.zero : TokenPair := ⟨[], "", false, false⟩

/-- An account of the ledger: a user account or a module account. -/
inductive Account where
  | BaseAccount
  | ModuleAccount (name : String)
deriving DecidableEq, Repr

/-- Modelled from the spec: `types.IsModuleAccount` is not under src/; a module
account is a protocol-owned account, so a missing account (nil) is none. -/
def IsModuleAccount (acc : Option Account) : Bool :=
  match acc with
  | some (.ModuleAccount _) => true
  | _ => false

/-- Modelled from the spec: the precompile type is not under src/; the interface
is bound to its pair and lives at the representation address of the pair. -/
structure Precompile where
  tokenPair : TokenPair
deriving DecidableEq, Repr

/-- Modelled from the spec: `Precompile.Address` is not under src/; the interface
of a pair is registered at `pair.representationAddress`. -/
def Precompile.Address (p : Precompile) : EthAddress := p.tokenPair.GetERC20Contract

/-- The call `common.BytesToAddress`: keeps the last 20 bytes of a longer input
and pads a shorter one with zeros on the left. -/
def BytesToAddress (b : List Nat) : EthAddress :=
  let c := if b.length > 20 then b.drop (b.length - 20) else b
  List.replicate (20 - c.length) 0 ++ c

/-- The message `types.MsgConvertCoin`, with its receiver and sender kept as
addresses. -/
structure MsgConvertCoin where
  Coin : Coin
  Receiver : EthAddress
  Sender : AccAddress
deriving DecidableEq, Repr

/-- The constructor `types.NewMsgConvertCoin`. -/
def NewMsgConvertCoin (coin : Coin) (receiver : EthAddress) (sender : AccAddress) :
    MsgConvertCoin := ⟨coin, receiver, sender⟩

/-- One telemetry emission: the counter keys and the labels. -/
structure Metric where
  keys : List String
  labels : List (String × String)
deriving DecidableEq, Repr

/-- The collaborator calls the callbacks can make. -/
inductive Call where
  | IsERC20Enabled
  | ClaimsGetParams
  | GetAccount (addr : AccAddress)
  | GetTokenPairID (token : String)
  | GetTokenPair (id : List Nat)
  | EvmGetParams
  | NewPrecompile (pair : TokenPair)
  | AddEVMExtensions (precompile : Precompile)
  | ConvertCoin (msg : MsgConvertCoin)
  | IncrCounter (metric : Metric)
deriving DecidableEq, Repr

/-- The part of the ledger state the callbacks read and write. -/
structure State where
  /-- The erc20 module parameter read by `IsERC20Enabled`. -/
  EnableErc20 : Bool
  /-- The claims module parameter `EVMChannels`. -/
  EVMChannels : List String
  /-- The account keeper: address to account. -/
  accounts : List (AccAddress × Account)
  /-- The registry index from denomination to pair id. -/
  denomMap : List (String × List Nat)
  /-- The registry table from pair id to pair. -/
  tokenPairs : List (List Nat × TokenPair)
  /-- The evm module parameter `ActivePrecompiles`. -/
  ActivePrecompiles : List String
  /-- The ledger-native balances, by account and denomination. -/
  bankBalances : List ((AccAddress × String) × Nat)
  /-- The contract-callable balances, by denomination and account. -/
  tokenBalances : List ((String × EthAddress) × Nat)
  /-- The send authorizations, by grantee and granter, each with its spend limit. -/
  grants : List ((AccAddress × AccAddress) × List Coin)
deriving DecidableEq, Repr

/-- Functions of other packages that the callbacks call. -/
structure Env where
  /-- The call `transfertypes.ModuleCdc.UnmarshalJSON` on the packet data. -/
  UnmarshalJSON : List Nat → Except Error FungibleTokenPacketData
  /-- The call `ibc.GetTransferSenderRecipient`: sender, recipient and their
  two bech32 texts, or an error. -/
  GetTransferSenderRecipient : Packet → Except Error (AccAddress × AccAddress × String × String)
  /-- The call `ibc.GetReceivedCoin`. -/
  GetReceivedCoin : String → String → String → String → String → String → Coin
  /-- The call `ibc.IsSingleHop`. -/
  IsSingleHop : String → Bool
  /-- The call `utils.GetIBCDenomAddress`. -/
  GetIBCDenomAddress : String → Except Error (List Nat)
  /-- The method `common.Address.String`. -/
  AddressString : EthAddress → String
  /-- The error, if any, with which the construction of the interface of a pair fails. -/
  constructionError : TokenPair → Option Error
  /-- The error, if any, with which the registration of an interface fails on the
  given active list. -/
  registrationError : List String → Precompile → Option Error
  /-- The call `sdk.AccAddressFromBech32`. -/
  AccAddressFromBech32 : String → Except Error AccAddress
  /-- The call `ibc.GetSentCoin`. -/
  GetSentCoin : String → String → Coin
  /-- The error, if any, with which the accounting of a conversion fails on the
  given state. -/
  conversionError : State → MsgConvertCoin → Option Error

/-! ## Collaborators -/

/-- The keeper method `IsERC20Enabled`. -/
def IsERC20Enabled (st : State) : Bool := st.EnableErc20

/-- The method `IsEVMChannel` of the claims parameters. -/
def IsEVMChannel (st : State) (channel : String) : Bool := st.EVMChannels.contains channel

/-- The account keeper method `GetAccount`; `none` is the nil account. -/
def GetAccount (st : State) (addr : AccAddress) : Option Account := st.accounts.lookup addr

/-- Modelled from the spec: `Keeper.GetTokenPairID` is not under src/; it is the
registry read `lookupByDenom`, and an empty id means that no pair is registered. -/
def GetTokenPairID (st : State) (token : String) : List Nat :=
  (st.denomMap.lookup token).getD []

/-- Modelled from the spec: `Keeper.GetTokenPair` is not under src/; it returns
the pair stored under the id and whether it was found. -/
def GetTokenPair (st : State) (id : List Nat) : TokenPair × Bool :=
  match st.tokenPairs.lookup id with
  | some pair => (pair, true)
  | none => (TokenPair.zero, false)

/-- Modelled from the spec: `Params.IsPrecompileRegistered` is not under src/; it
is the query "is an interface registered at address X". -/
def IsPrecompileRegistered (st : State) (address : String) : Bool :=
  st.ActivePrecompiles.contains address

/-- Modelled from the spec: `erc20.NewPrecompile` is not under src/; it builds the
interface bound to the pair, or fails. -/
def NewPrecompile (env : Env) (pair : TokenPair) : Except Error Precompile :=
  match env.constructionError pair with
  | some err => .error err
  | none => .ok ⟨pair⟩

/-- Modelled from the spec: `AddEVMExtensions` is not under src/; it is
"register interface at address X": on success the address of the interface is
active, on failure nothing is registered. -/
def AddEVMExtensions (env : Env) (st : State) (precompile : Precompile) : Except Error State :=
  match env.registrationError st.ActivePrecompiles precompile with
  | some err => .error err
  | none =>
    .ok { st with
      ActivePrecompiles := st.ActivePrecompiles ++ [env.AddressString precompile.Address] }

/-! ## The receive callback -/

/-- How a callback ends: it returns a value, or the Go runtime panics. -/
inductive Outcome (α : Type) where
  | returned (value : α)
  | panicked
deriving DecidableEq, Repr

/-- What a callback run produces: its outcome, the state it leaves and the
collaborator calls it made, in order. -/
structure Run (α : Type) where
  outcome : Outcome α
  state : State
  calls : List Call
deriving DecidableEq, Repr

/-- The telemetry emitted at the end of a receive that reaches the last return. -/
def onRecvMetric (coin : Coin) (packet : Packet) : Metric :=
  ⟨["erc20", "ibc", "on_recv", "total"],
   [("denom", coin.Denom), ("source_channel", packet.SourceChannel),
    ("source_port", packet.SourcePort)]⟩

/-- The keeper method `OnRecvPacket`. -/
def OnRecvPacket (env : Env) (st : State) (packet : Packet) (ack : Acknowledgement) :
    Run Acknowledgement :=
  match env.UnmarshalJSON packet.Data with
  | .error _ =>
    ⟨.returned (NewErrorAcknowledgement
      (Wrapf ErrInvalidType "cannot unmarshal ICS-20 transfer packet data")), st, []⟩
  | .ok data =>
    if !IsERC20Enabled st then
      ⟨.returned ack, st, [.IsERC20Enabled]⟩
    else
    match env.GetTransferSenderRecipient packet with
    | .error err => ⟨.returned (NewErrorAcknowledgement err), st, [.IsERC20Enabled]⟩
    | .ok (sender, recipient, _, _) =>
      if sender == recipient && !IsEVMChannel st packet.DestinationChannel then
        ⟨.returned ack, st, [.IsERC20Enabled, .ClaimsGetParams]⟩
      else
      let senderAcc := GetAccount st sender
      if IsModuleAccount senderAcc then
        ⟨.returned ack, st, [.IsERC20Enabled, .ClaimsGetParams, .GetAccount sender]⟩
      else
      let coin := env.GetReceivedCoin packet.SourcePort packet.SourceChannel
        packet.DestinationPort packet.DestinationChannel data.Denom data.Amount
      if !env.IsSingleHop data.Denom then
        ⟨.returned ack, st, [.IsERC20Enabled, .ClaimsGetParams, .GetAccount sender]⟩
      else
      let pairID := GetTokenPairID st coin.Denom
      if pairID.length == 0 then
        ⟨.returned ack, st,
          [.IsERC20Enabled, .ClaimsGetParams, .GetAccount sender, .GetTokenPairID coin.Denom]⟩
      else
      let pair := (GetTokenPair st pairID).1
      let readCalls : List Call :=
        [.IsERC20Enabled, .ClaimsGetParams, .GetAccount sender, .GetTokenPairID coin.Denom,
          .GetTokenPair pairID]
      if !pair.Enabled || pair.IsNativeCoin then
        ⟨.returned ack, st, readCalls⟩
      else
      match env.GetIBCDenomAddress coin.Denom with
      | .error err => ⟨.returned (NewErrorAcknowledgement err), st, readCalls⟩
      | .ok denomAddr =>
        if denomAddr.length < 20 then
          ⟨.panicked, st, readCalls⟩
        else
        let truncatedAddr := denomAddr.take 20
        let found := IsPrecompileRegistered st (env.AddressString (BytesToAddress truncatedAddr))
        if !found then
          match NewPrecompile env pair with
          | .error err =>
            ⟨.returned (NewErrorAcknowledgement err), st,
              readCalls ++ [.EvmGetParams, .NewPrecompile pair]⟩
          | .ok newPrecompile =>
            match AddEVMExtensions env st newPrecompile with
            | .error err =>
              ⟨.returned (NewErrorAcknowledgement err), st,
                readCalls ++ [.EvmGetParams, .NewPrecompile pair,
                  .AddEVMExtensions newPrecompile]⟩
            | .ok st2 =>
              ⟨.returned ack, st2,
                readCalls ++ [.EvmGetParams, .NewPrecompile pair,
                  .AddEVMExtensions newPrecompile, .IncrCounter (onRecvMetric coin packet)]⟩
        else
          ⟨.returned ack, st,
            readCalls ++ [.EvmGetParams, .IncrCounter (onRecvMetric coin packet)]⟩

/-! ## The acknowledgement and timeout callbacks -/

/-- The ledger-native balance of an account in a denomination. -/
def GetBalance (st : State) (addr : AccAddress) (denom : String) : Nat :=
  (st.bankBalances.lookup (addr, denom)).getD 0

/-- The contract-callable balance of an account in the representation of a
denomination. -/
def BalanceOf (st : State) (denom : String) (account : EthAddress) : Nat :=
  (st.tokenBalances.lookup (denom, account)).getD 0

/-- The sdk error `ErrInsufficientFunds` (code 5 of the sdk codespace). -/
def ErrInsufficientFunds : Error := ⟨5, "insufficient funds"⟩

/-- Modelled from the spec: `Keeper.ConvertCoin` is not under src/; it is
`ConversionEngine.convert` in the coin-to-token direction.  A zero amount is a
no-op success.  Otherwise the operation is atomic: it fails without a state
change, or the full amount leaves the ledger-native balance of the sender and
enters the contract-callable balance of the receiver. -/
def ConvertCoin (env : Env) (st : State) (msg : MsgConvertCoin) : Except Error State :=
  if msg.Coin.Amount = 0 then .ok st
  else
    match env.conversionError st msg with
    | some err => .error err
    | none =>
      if GetBalance st msg.Sender msg.Coin.Denom < msg.Coin.Amount then
        .error ErrInsufficientFunds
      else
        .ok { st with
          bankBalances :=
            ((msg.Sender, msg.Coin.Denom),
              GetBalance st msg.Sender msg.Coin.Denom - msg.Coin.Amount) :: st.bankBalances
          tokenBalances :=
            ((msg.Coin.Denom, msg.Receiver),
              BalanceOf st msg.Coin.Denom msg.Receiver + msg.Coin.Amount) ::
              st.tokenBalances }

/-- The telemetry emitted at the end of a refund that converted. -/
def convertMetric : Metric := ⟨["erc20", "ibc", "error", "total"], []⟩

/-- The keeper method `ConvertCoinToERC20FromPacket`; the outcome `none` is the
nil error. -/
def ConvertCoinToERC20FromPacket (env : Env) (st : State) (data : FungibleTokenPacketData) :
    Run (Option Error) :=
  match env.AccAddressFromBech32 data.Sender with
  | .error err => ⟨.returned (some err), st, []⟩
  | .ok sender =>
    if !IsERC20Enabled st then
      ⟨.returned none, st, [.IsERC20Enabled]⟩
    else
    let senderAcc := GetAccount st sender
    if IsModuleAccount senderAcc then
      ⟨.returned none, st, [.IsERC20Enabled, .GetAccount sender]⟩
    else
    let pairID := GetTokenPairID st data.Denom
    if pairID.length == 0 then
      ⟨.returned none, st, [.IsERC20Enabled, .GetAccount sender, .GetTokenPairID data.Denom]⟩
    else
    let pair := (GetTokenPair st pairID).1
    let readCalls : List Call :=
      [.IsERC20Enabled, .GetAccount sender, .GetTokenPairID data.Denom, .GetTokenPair pairID]
    if !pair.Enabled || pair.IsNativeCoin then
      ⟨.returned none, st, readCalls⟩
    else
    let coin := env.GetSentCoin data.Denom data.Amount
    let msg := NewMsgConvertCoin coin (BytesToAddress sender) sender
    match ConvertCoin env st msg with
    | .error err => ⟨.returned (some err), st, readCalls ++ [.ConvertCoin msg]⟩
    | .ok st2 =>
      ⟨.returned none, st2, readCalls ++ [.ConvertCoin msg, .IncrCounter convertMetric]⟩

/-- The keeper method `OnAcknowledgementPacket`; the packet argument is unused. -/
def OnAcknowledgementPacket (env : Env) (st : State) (_packet : Packet)
    (data : FungibleTokenPacketData) (ack : Acknowledgement) : Run (Option Error) :=
  match ack.Response with
  | some (.Acknowledgement_Error _) => ConvertCoinToERC20FromPacket env st data
  | _ => ⟨.returned none, st, []⟩

/-- The keeper method `OnTimeoutPacket`; the packet argument is unused. -/
def OnTimeoutPacket (env : Env) (st : State) (_packet : Packet)
    (data : FungibleTokenPacketData) : Run (Option Error) :=
  ConvertCoinToERC20FromPacket env st data

/-! ## The ERC20 precompile -/

/-- The events the precompile emits. -/
inductive Event where
  | Transfer (sender receiver : AccAddress) (amount : Nat)
  | Approval (owner spender : AccAddress) (amount : Nat)
deriving DecidableEq, Repr

/-- What a call of the precompile produces: its error, if it fails; the state it
leaves, which is the given state when it fails; the events it emits. -/
structure TokenRun where
  err : Option Error
  state : State
  events : List Event
deriving DecidableEq, Repr

/-- The bank keeper method `SendCoins` for a coin of one denomination: it fails
when the spendable balance of the sender is smaller than the amount; otherwise it
subtracts the amount from the sender, adds it to the receiver and creates the
account of the receiver when it does not exist. -/
def SendCoins (st : State) (sender receiver : AccAddress) (denom : String) (amount : Nat) :
    Except Error State :=
  if GetBalance st sender denom < amount then
    .error (Wrapf ErrInsufficientFunds
      ("spendable balance " ++ Nat.repr (GetBalance st sender denom) ++ denom ++
        " is smaller than " ++ Nat.repr amount ++ denom))
  else
    let st1 : State := { st with
      bankBalances :=
        ((sender, denom), GetBalance st sender denom - amount) :: st.bankBalances }
    let st2 : State := { st1 with
      bankBalances :=
        ((receiver, denom), GetBalance st1 receiver denom + amount) :: st1.bankBalances }
    .ok (if (GetAccount st2 receiver).isSome then st2
      else { st2 with accounts := st2.accounts ++ [(receiver, .BaseAccount)] })

/-- The amount of a denomination in a spend limit; zero when it has none. -/
def amountOf (limit : List Coin) (denom : String) : Nat :=
  ((limit.find? fun c => c.Denom == denom).map fun c => c.Amount).getD 0

/-- A spend limit without a denomination. -/
def removeDenom (limit : List Coin) (denom : String) : List Coin :=
  limit.filter fun c => !(c.Denom == denom)

/-- A spend limit with the amount of a denomination replaced. -/
def setLimit (limit : List Coin) (denom : String) (amount : Nat) : List Coin :=
  ⟨denom, amount⟩ :: removeDenom limit denom

/-- The spend limit left after spending an amount of a denomination: the
denomination is dropped when nothing of it is left. -/
def subLimit (limit : List Coin) (denom : String) (amount : Nat) : List Coin :=
  if amountOf limit denom - amount = 0 then removeDenom limit denom
  else setLimit limit denom (amountOf limit denom - amount)

/-- The spend limit of the send authorization of a grantee by a granter, if there
is one. -/
def GetAuthorization (st : State) (grantee granter : AccAddress) : Option (List Coin) :=
  st.grants.lookup (grantee, granter)

/-- The query `GetAuthorizations`: the spend limits of all send authorizations of
a grantee by a granter. -/
def GetAuthorizations (st : State) (grantee granter : AccAddress) : List (List Coin) :=
  (st.grants.filter fun g => g.1 == (grantee, granter)).map fun g => g.2

/-- The authz keeper method `DeleteGrant` for the send authorization. -/
def DeleteGrant (st : State) (grantee granter : AccAddress) : State :=
  { st with grants := st.grants.filter fun g => !(g.1 == (grantee, granter)) }

/-- The authz keeper method `SaveGrant` for the send authorization: it replaces
the authorization of the grantee by the granter. -/
def SaveGrant (st : State) (grantee granter : AccAddress) (limit : List Coin) : State :=
  { st with
    grants := ((grantee, granter), limit) ::
      st.grants.filter fun g => !(g.1 == (grantee, granter)) }

/-- The authz error `ErrNoAuthorizationFound`. -/
def ErrNoAuthorizationFound : Error := ⟨2, "authorization not found"⟩

/-- The authz error `ErrGranteeIsGranter`. -/
def ErrGranteeIsGranter : Error := ⟨7, "grantee and granter should be different"⟩

/-- The error of the send authorization when the amount exceeds the spend limit. -/
def ErrSpendLimit : Error :=
  Wrapf ErrInsufficientFunds "requested amount is more than spend limit"

/-- The error of `approve` for a zero amount without an authorization. -/
def ErrNonPositive : Error := ⟨1, "cannot approve non-positive values"⟩

/-- The error of `approve` for a zero amount without a limit for the token. -/
def ErrNoAllowance (denom : String) : Error :=
  ⟨1, "allowance for token " ++ denom ++ " does not exist"⟩

/-- Modelled from the spec: the precompile method `transfer` is not under src/
(only its integration test is); it sends the amount of the token denomination
from the caller to the receiver through the bank and emits a Transfer event. -/
def Precompile.transfer (p : Precompile) (st : State) (caller receiver : AccAddress)
    (amount : Nat) : TokenRun :=
  match SendCoins st caller receiver p.tokenPair.Denom amount with
  | .error err => ⟨some err, st, []⟩
  | .ok st2 => ⟨none, st2, [.Transfer caller receiver amount]⟩

/-- The error of a reverted execution. -/
def ErrExecutionReverted : Error := ⟨1, "execution reverted"⟩

/-- Modelled from the spec: the precompile method `transferFrom` is not under
src/ (only its integration test is).  The caller of the method is the spender:
the signer of the transaction in a direct call, the calling contract in a call
through a contract; `origin` is the signer of the transaction.  The spender
needs a send authorization of the owner whose spend limit for the token covers
the amount, and the owner needs the balance.  A covered call through a contract
(the spender is not the signer) in a transaction that the owner did not sign is
reverted, as the integration test "it should return an error trying to send
using a smart contract but triggered from another account" expects.  On success
the bank moves the amount, the spent amount leaves the spend limit and an
authorization without a limit left is deleted. -/
def Precompile.transferFrom (p : Precompile) (st : State)
    (origin spender owner receiver : AccAddress) (amount : Nat) : TokenRun :=
  match GetAuthorization st spender owner with
  | none => ⟨some ErrNoAuthorizationFound, st, []⟩
  | some limit =>
    if amountOf limit p.tokenPair.Denom < amount then
      ⟨some ErrSpendLimit, st, []⟩
    else
      match SendCoins st owner receiver p.tokenPair.Denom amount with
      | .error err => ⟨some err, st, []⟩
      | .ok st2 =>
        if spender ≠ origin ∧ owner ≠ origin then
          ⟨some ErrExecutionReverted, st, []⟩
        else
        let left := subLimit limit p.tokenPair.Denom amount
        ⟨none,
          if left.isEmpty then DeleteGrant st2 spender owner
          else SaveGrant st2 spender owner left,
          [.Transfer owner receiver amount]⟩

/-- Modelled from the spec: the precompile method `approve` is not under src/
(only its integration test is).  Without an authorization, a zero amount fails
and a positive amount creates the authorization; with an authorization, a zero
amount removes the token from the spend limit (and deletes an authorization
without a limit left) or fails when the limit has no entry for the token, and a
positive amount sets the limit of the token.  A positive approval of the granter
for itself fails. -/
def Precompile.approve (p : Precompile) (st : State) (granter grantee : AccAddress)
    (amount : Nat) : TokenRun :=
  match GetAuthorization st grantee granter with
  | none =>
    if amount = 0 then ⟨some ErrNonPositive, st, []⟩
    else if grantee = granter then ⟨some ErrGranteeIsGranter, st, []⟩
    else
      ⟨none, SaveGrant st grantee granter [⟨p.tokenPair.Denom, amount⟩],
        [.Approval granter grantee amount]⟩
  | some limit =>
    if amount = 0 then
      if (limit.find? fun c => c.Denom == p.tokenPair.Denom).isNone then
        ⟨some (ErrNoAllowance p.tokenPair.Denom), st, []⟩
      else
        ⟨none,
          if (removeDenom limit p.tokenPair.Denom).isEmpty then DeleteGrant st grantee granter
          else SaveGrant st grantee granter (removeDenom limit p.tokenPair.Denom),
          [.Approval granter grantee amount]⟩
    else if grantee = granter then ⟨some ErrGranteeIsGranter, st, []⟩
    else
      ⟨none, SaveGrant st grantee granter (setLimit limit p.tokenPair.Denom amount),
        [.Approval granter grantee amount]⟩

/-! ## Classification of collaborator calls -/

/-- A telemetry emission. -/
def Call.isTelemetry : Call → Bool
  | .IncrCounter _ => true
  | _ => false

/-- A read of the claims parameters. -/
def Call.isClaims : Call → Bool
  | .ClaimsGetParams => true
  | _ => false

/-- A query to the account keeper. -/
def Call.isAccount : Call → Bool
  | .GetAccount _ => true
  | _ => false

/-- A read of the token-pair registry. -/
def Call.isRegistry : Call → Bool
  | .GetTokenPairID _ => true
  | .GetTokenPair _ => true
  | _ => false

/-- A read of the EVM parameters. -/
def Call.isEvmParams : Call → Bool
  | .EvmGetParams => true
  | _ => false

/-- A call of the precompile constructor. -/
def Call.isConstruction : Call → Bool
  | .NewPrecompile _ => true
  | _ => false

/-- A call of `AddEVMExtensions`. -/
def Call.isRegistration : Call → Bool
  | .AddEVMExtensions _ => true
  | _ => false

/-- A call of `ConvertCoin`. -/
def Call.isConversion : Call → Bool
  | .ConvertCoin _ => true
  | _ => false

/-- The coin `OnRecvPacket` computes from the packet and its data. -/
def receivedCoin (env : Env) (packet : Packet) (data : FungibleTokenPacketData) : Coin :=
  env.GetReceivedCoin packet.SourcePort packet.SourceChannel
    packet.DestinationPort packet.DestinationChannel data.Denom data.Amount

/-- The address text `OnRecvPacket` passes to `IsPrecompileRegistered`. -/
def queriedAddress (env : Env) (denomAddr : List Nat) : String :=
  env.AddressString (BytesToAddress (denomAddr.take 20))

/-- The path condition of the activation step of `OnRecvPacket`: the payload
decodes, the feature is enabled, the addresses resolve, the self-transfer exit
is not taken, the sender is no module account, the denomination is single-hop
and an enabled pair that is not a native-coin pair is registered for the
received denomination. -/
def PassesChecks (env : Env) (st : State) (packet : Packet) (data : FungibleTokenPacketData)
    (sender recipient : AccAddress) (pair : TokenPair) : Prop :=
  env.UnmarshalJSON packet.Data = .ok data ∧
  IsERC20Enabled st = true ∧
  (∃ sb rb, env.GetTransferSenderRecipient packet = .ok (sender, recipient, sb, rb)) ∧
  ¬ (sender = recipient ∧ IsEVMChannel st packet.DestinationChannel = false) ∧
  IsModuleAccount (GetAccount st sender) = false ∧
  env.IsSingleHop data.Denom = true ∧
  GetTokenPairID st (receivedCoin env packet data).Denom ≠ [] ∧
  pair = (GetTokenPair st (GetTokenPairID st (receivedCoin env packet data).Denom)).1 ∧
  pair.Enabled = true ∧
  pair.IsNativeCoin = false

/-- The path condition of the conversion step of `ConvertCoinToERC20FromPacket`:
the sender decodes, the feature is enabled, the sender is no module account and
an enabled pair that is not a native-coin pair is registered for the sent
denomination. -/
def ReachesConversion (env : Env) (st : State) (data : FungibleTokenPacketData)
    (sender : AccAddress) (pair : TokenPair) : Prop :=
  env.AccAddressFromBech32 data.Sender = .ok sender ∧
  IsERC20Enabled st = true ∧
  IsModuleAccount (GetAccount st sender) = false ∧
  GetTokenPairID st data.Denom ≠ [] ∧
  pair = (GetTokenPair st (GetTokenPairID st data.Denom)).1 ∧
  pair.Enabled = true ∧
  pair.IsNativeCoin = false

/-- The failure conditions of `OnRecvPacket`: the payload fails to decode; or,
with the feature enabled, sender and receiver fail to resolve; or, on the
activation path, the derivation of the denomination address fails, or no
interface is registered at the queried address and the construction or the
registration of the interface fails. -/
def RecvFailure (env : Env) (st : State) (packet : Packet) : Prop :=
  (∃ err, env.UnmarshalJSON packet.Data = .error err) ∨
  (IsERC20Enabled st = true ∧ ∃ data err, env.UnmarshalJSON packet.Data = .ok data ∧
    env.GetTransferSenderRecipient packet = .error err) ∨
  (∃ data sender recipient pair, PassesChecks env st packet data sender recipient pair ∧
    ((∃ err, env.GetIBCDenomAddress (receivedCoin env packet data).Denom = .error err) ∨
     (∃ denomAddr, env.GetIBCDenomAddress (receivedCoin env packet data).Denom = .ok denomAddr ∧
        IsPrecompileRegistered st (queriedAddress env denomAddr) = false ∧
        ((∃ err, NewPrecompile env pair = .error err) ∨
         (∃ newPrecompile err, NewPrecompile env pair = .ok newPrecompile ∧
            AddEVMExtensions env st newPrecompile = .error err)))))

/-- The error `InvalidDenom` of the address derivation. -/
def ErrInvalidDenom : Error := ⟨3, "invalid denomination for cross-chain transfer"⟩

/-- Modelled from the spec: `utils.GetIBCDenomAddress` is not under src/; it is
`AddressDeriver.derive`: it fails with `InvalidDenom` on the empty denomination
and otherwise hashes the denomination and cuts the hash to the width of an
address with `common.BytesToAddress`, which gives a fixed-width address.  The
hash is a parameter and may be of any width. -/
def GetIBCDenomAddress (hash : String → List Nat) (denom : String) : Except Error (List Nat) :=
  if denom = "" then .error ErrInvalidDenom else .ok (BytesToAddress (hash denom))

/-- Modelled from the spec: the number of relay hops a denomination encodes is
the number of its prefix segments, each a port and a channel that end in a
slash, in front of the base denomination. -/
def hopCount (denom : String) : Nat := denom.toList.count '/' / 2

/-- Modelled from the spec: `ibc.IsSingleHop` is not under src/; a single-hop
denomination carries exactly one prefix segment. -/
def IsSingleHop (rawDenom : String) : Bool := hopCount rawDenom == 1

/-- Modelled from the spec: `ibc.GetReceivedCoin` is not under src/; it applies
the denomination-prefixing rule of the relay protocol for the port and channel
pair: a denomination that carries the prefix of the source port and channel
returns to the chain it came from and loses that prefix, and any other
denomination gains the prefix of the destination port and channel.  The reading
of the amount text is a parameter. -/
def GetReceivedCoin (readAmount : String → Nat)
    (srcPort srcChannel dstPort dstChannel rawDenom rawAmt : String) : Coin :=
  let voucherPrefix := (srcPort ++ "/" ++ srcChannel ++ "/").toList
  if voucherPrefix.isPrefixOf rawDenom.toList then
    ⟨String.mk (rawDenom.toList.drop voucherPrefix.length), readAmount rawAmt⟩
  else
    ⟨dstPort ++ "/" ++ dstChannel ++ "/" ++ rawDenom, readAmount rawAmt⟩

/-- The message `ConvertCoinToERC20FromPacket` builds for a decoded sender. -/
def refundMsg (env : Env) (data : FungibleTokenPacketData) (sender : AccAddress) :
    MsgConvertCoin :=
  NewMsgConvertCoin (env.GetSentCoin data.Denom data.Amount) (BytesToAddress sender) sender

/-! ## A concrete chain for examples -/

/-- The lower-case hexadecimal digit of a number below 16. -/
def hexDigit (n : Nat) : Char :=
  if n < 10 then Char.ofNat (48 + n) else Char.ofNat (87 + n)

/-- Hexadecimal text of an address, without checksum casing. -/
def hexString (a : EthAddress) : String :=
  "0x" ++ String.mk (a.flatMap fun b => [hexDigit (b / 16 % 16), hexDigit (b % 16)])

/-- Example payloads are three bytes: a denomination selector, a sender byte and
a receiver byte; a zero byte stands for an account id that does not decode. -/
def demoDenom (d : Nat) : String :=
  if d = 0 then "transfer/channel-0/uatom"
  else if d = 1 then "transfer/channel-0/transfer/channel-7/uatom"
  else "transfer/channel-0/uxyz"

/-- Example account id text of a byte. -/
def demoBech32 (b : Nat) : String :=
  if b = 0 then "" else "evmos1" ++ String.mk (List.replicate 38 (hexDigit (b % 16)))

/-- Example reading of a decimal amount text. -/
def demoAmount (rawAmt : String) : Nat :=
  rawAmt.toList.foldl (fun acc c => 10 * acc + (c.toNat - 48)) 0

/-- The value of a lower-case hexadecimal digit. -/
def hexValue (c : Char) : Nat :=
  if c.toNat < 58 then c.toNat - 48 else c.toNat - 87

/-- Example decoding of an account id text: the inverse of `demoBech32`. -/
def demoAccAddress (text : String) : Except Error AccAddress :=
  match text.toList.drop 6 with
  | c :: _ => .ok (List.replicate 20 (hexValue c))
  | [] => .error ⟨1, "empty address string is not allowed"⟩

/-- Example library functions. -/
def demoEnv : Env where
  UnmarshalJSON := fun bz =>
    match bz with
    | [d, s, r] => .ok ⟨demoDenom d, "100", demoBech32 s, demoBech32 r, ""⟩
    | _ => .error ⟨1, "invalid character"⟩
  GetTransferSenderRecipient := fun packet =>
    match packet.Data with
    | [_, s, r] =>
      if s = 0 then .error ⟨1, "invalid sender: empty address string is not allowed"⟩
      else if r = 0 then .error ⟨1, "invalid recipient: empty address string is not allowed"⟩
      else .ok (List.replicate 20 s, List.replicate 20 r, demoBech32 s, demoBech32 r)
    | _ => .error ⟨6, "cannot unmarshal ICS-20 transfer packet data"⟩
  GetReceivedCoin := fun _ _ dstPort dstChannel rawDenom rawAmt =>
    ⟨"ibc/" ++ dstPort ++ "/" ++ dstChannel ++ "/" ++ rawDenom, demoAmount rawAmt⟩
  IsSingleHop := fun rawDenom => rawDenom.toList.count '/' == 2
  GetIBCDenomAddress := fun denom =>
    if "ibc/".toList.isPrefixOf denom.toList then
      .ok (((denom.toList.drop 4).map Char.toNat ++ List.replicate 32 0).take 32)
    else .error ⟨25, "invalid denomination for cross-chain transfer"⟩
  AddressString := hexString
  constructionError := fun _ => none
  registrationError := fun active precompile =>
    if active.contains (hexString precompile.Address) then
      some ⟨1, "precompile already registered"⟩
    else none
  AccAddressFromBech32 := demoAccAddress
  GetSentCoin := fun rawDenom rawAmt => ⟨rawDenom, demoAmount rawAmt⟩
  conversionError := fun _ _ => none

/-- Example packet with the payload bytes `data`, received on `channel`. -/
def demoPacket (data : List Nat) (channel : String) : Packet :=
  ⟨1, "transfer", "channel-0", "transfer", channel, data⟩

/-- The denomination of the coin received for selector 0 on channel-9. -/
def demoVoucher : String := "ibc/transfer/channel-9/transfer/channel-0/uatom"

/-- Example pair for `demoVoucher` at the 20-byte address made of the byte `b`. -/
def demoPair (b : Nat) (enabled native : Bool) : TokenPair :=
  ⟨List.replicate 20 b, demoVoucher, enabled, native⟩

/-- Example ledger: the feature flag, one recovery channel, a module account at
the address of byte 7 and a registry that holds `pair` under the id `[1]`. -/
def demoState (enabled : Bool) (pair : TokenPair) : State where
  EnableErc20 := enabled
  EVMChannels := ["channel-3"]
  accounts := [(List.replicate 20 7, .ModuleAccount "transfer"),
    (List.replicate 20 5, .BaseAccount)]
  denomMap := [(pair.Denom, [1])]
  tokenPairs := [([1], pair)]
  ActivePrecompiles := []
  bankBalances := [((List.replicate 20 5, demoVoucher), 500)]
  tokenBalances := []
  grants := []

/-- The bytes derived from the example voucher denomination. -/
def demoDenomAddr : List Nat :=
  ((demoVoucher.toList.drop 4).map Char.toNat ++ List.replicate 32 0).take 32

/-- Example hash: the character codes of the denomination. -/
def demoHash (denom : String) : List Nat := denom.toList.map Char.toNat

/-- Example library functions whose address derivation is the derivation of the
spec over the example hash. -/
def demoEnvDerived : Env :=
  { demoEnv with GetIBCDenomAddress := GetIBCDenomAddress demoHash }

/-- The address derived from the example voucher denomination by the derivation
of the spec over the example hash. -/
def demoDerivedAddr : List Nat := BytesToAddress (demoHash demoVoucher)

/-- Example library functions whose received coin, single-hop test and address
derivation are those of the spec. -/
def demoEnvHops : Env :=
  { demoEnv with
    GetReceivedCoin := GetReceivedCoin demoAmount
    IsSingleHop := IsSingleHop
    GetIBCDenomAddress := GetIBCDenomAddress demoHash }

/-- Example packet relayed onwards: it carries the payload bytes `data`, leaves
the sending chain on channel-5 and arrives on channel-9. -/
def demoRelayed (data : List Nat) : Packet :=
  ⟨1, "transfer", "channel-5", "transfer", "channel-9", data⟩

/-- The denomination received for selector 0 from a relayed packet: the packet
denomination behind the prefix of the destination port and channel. -/
def demoTwoHop : String := "transfer/channel-9/transfer/channel-0/uatom"

/-- Example pair for `demoTwoHop`: enabled and no native-coin pair. -/
def demoPairTwoHop : TokenPair := ⟨List.replicate 20 17, demoTwoHop, true, false⟩

/-- Example pair for the base denomination `uatom`, as in the scenario of the
spec. -/
def demoPairBase : TokenPair := ⟨List.replicate 20 171, "uatom", true, false⟩

/-- Example pair for `demoVoucher` whose address is the first 20 bytes derived
from the voucher denomination by the example library. -/
def demoPairDerived : TokenPair := ⟨demoDenomAddr.take 20, demoVoucher, true, false⟩

/-- Example library functions whose precompile constructor always fails. -/
def demoEnvNoConstruction : Env :=
  { demoEnv with constructionError := fun _ => some ⟨2, "error loading the ABI"⟩ }

/-- A successful acknowledgement, as given by the transfer module. -/
def demoAck : Acknowledgement := ⟨some (.Acknowledgement_Result [1])⟩

/-- The example precompile: the interface of the example pair, whose token
denomination is the example voucher. -/
def demoToken : Precompile := ⟨demoPair 17 true false⟩

/-- Example account address of a byte. -/
def demoAddr (b : Nat) : AccAddress := List.replicate 20 b

/-- Example ledger for the precompile: the account of byte 5 holds 200 of the
token, and the account of byte 6 has the send authorization of the account of
byte 5 with the given spend limit. -/
def demoTokenState (limit : Option (List Coin)) : State :=
  { demoState true (demoPair 17 true false) with
    bankBalances := [((demoAddr 5, demoVoucher), 200)]
    grants := match limit with
      | some l => [((demoAddr 6, demoAddr 5), l)]
      | none => [] }

/-- Example packet data of an outbound transfer of `amount` of the example
voucher by the account of byte `s`. -/
def demoSent (s : Nat) (amount : String) : FungibleTokenPacketData :=
  ⟨demoVoucher, amount, demoBech32 s, demoBech32 6, ""⟩


/-! ## Shared lemmas -/

/-- The self-transfer test of `OnRecvPacket` is false when the exit condition fails. -/
theorem selfTransfer_test_false (st : State) (packet : Packet) (sender recipient : AccAddress)
    (h : ¬ (sender = recipient ∧ IsEVMChannel st packet.DestinationChannel = false)) :
    (sender == recipient && !IsEVMChannel st packet.DestinationChannel) = false := by
  cases hc : IsEVMChannel st packet.DestinationChannel <;> simp_all

/-- Under the path condition, with a derived address of at least 20 bytes, the
receive callback is decided by the registration query, the construction and the
registration alone. -/
theorem OnRecvPacket_of_passesChecks (env : Env) (st : State) (packet : Packet)
    (ack : Acknowledgement) (data : FungibleTokenPacketData) (sender recipient : AccAddress)
    (pair : TokenPair) (denomAddr : List Nat)
    (hpass : PassesChecks env st packet data sender recipient pair)
    (haddr : env.GetIBCDenomAddress (receivedCoin env packet data).Denom = .ok denomAddr)
    (hlen : 20 ≤ denomAddr.length) :
    OnRecvPacket env st packet ack =
      let coin := receivedCoin env packet data
      let readCalls : List Call :=
        [.IsERC20Enabled, .ClaimsGetParams, .GetAccount sender, .GetTokenPairID coin.Denom,
          .GetTokenPair (GetTokenPairID st coin.Denom)]
      if IsPrecompileRegistered st (queriedAddress env denomAddr) then
        ⟨.returned ack, st, readCalls ++ [.EvmGetParams, .IncrCounter (onRecvMetric coin packet)]⟩
      else
        match NewPrecompile env pair with
        | .error err =>
          ⟨.returned (NewErrorAcknowledgement err), st,
            readCalls ++ [.EvmGetParams, .NewPrecompile pair]⟩
        | .ok newPrecompile =>
          match AddEVMExtensions env st newPrecompile with
          | .error err =>
            ⟨.returned (NewErrorAcknowledgement err), st,
              readCalls ++ [.EvmGetParams, .NewPrecompile pair, .AddEVMExtensions newPrecompile]⟩
          | .ok st2 =>
            ⟨.returned ack, st2,
              readCalls ++ [.EvmGetParams, .NewPrecompile pair, .AddEVMExtensions newPrecompile,
                .IncrCounter (onRecvMetric coin packet)]⟩ := by
  obtain ⟨h1, h2, ⟨sb, rb, h3⟩, h4, h5, h6, h7, h8, h9, h10⟩ := hpass
  have h4b := selfTransfer_test_false st packet sender recipient h4
  simp only [receivedCoin] at h7 h8 haddr
  subst h8
  have hl : ¬ denomAddr.length < 20 := by omega
  cases hq : IsPrecompileRegistered st (queriedAddress env denomAddr) <;>
    simp only [queriedAddress] at hq <;>
    simp [OnRecvPacket, h1, h2, h3, h4b, h5, h6, h7, h9, h10, haddr, hl, hq, receivedCoin,
      queriedAddress]

/-- An error acknowledgement is an error response. -/
theorem NewErrorAcknowledgement_isError (err : Error) :
    (NewErrorAcknowledgement err).isError = true := rfl

/-- An error acknowledgement differs from every acknowledgement that is no error. -/
theorem NewErrorAcknowledgement_ne (err : Error) (ack : Acknowledgement)
    (h : ack.isError = false) : NewErrorAcknowledgement err ≠ ack := by
  intro heq
  rw [← heq, NewErrorAcknowledgement_isError] at h
  exact Bool.noConfusion h

/-- The example packet passes all checks on the example ledger. -/
theorem demo_passesChecks (b : Nat) :
    PassesChecks demoEnv (demoState true (demoPair b true false)) (demoPacket [0, 5, 6] "channel-9")
      ⟨demoDenom 0, "100", demoBech32 5, demoBech32 6, ""⟩
      (List.replicate 20 5) (List.replicate 20 6) (demoPair b true false) :=
  ⟨rfl, rfl, ⟨_, _, rfl⟩, fun h => absurd h.1 (by decide), rfl, rfl,
    (by show ([1] : List Nat) ≠ []; decide), rfl, rfl, rfl⟩

/-! ## The receive callback: claims -/

/-- C1: for every packet whose payload decodes, if the ERC20 conversion feature is
disabled then `OnRecvPacket` returns exactly the acknowledgement it was given,
leaves the state as it was, and its only collaborator call is the read of the
feature flag: no call to the claims parameters, the account keeper, the
token-pair registry, the EVM parameters, the precompile constructor or
`AddEVMExtensions`. -/
theorem OnRecvPacket_disabled_passthrough (env : Env) (st : State) (packet : Packet)
    (ack : Acknowledgement) (data : FungibleTokenPacketData)
    (hdata : env.UnmarshalJSON packet.Data = .ok data)
    (hoff : IsERC20Enabled st = false) :
    (OnRecvPacket env st packet ack).outcome = .returned ack ∧
    (OnRecvPacket env st packet ack).state = st ∧
    (OnRecvPacket env st packet ack).calls = [Call.IsERC20Enabled] ∧
    ∀ c ∈ (OnRecvPacket env st packet ack).calls,
      c.isClaims = false ∧ c.isAccount = false ∧ c.isRegistry = false ∧
      c.isEvmParams = false ∧ c.isConstruction = false ∧ c.isRegistration = false := by
  simp [OnRecvPacket, hdata, hoff, Call.isClaims, Call.isAccount, Call.isRegistry,
    Call.isEvmParams, Call.isConstruction, Call.isRegistration]

/-- C1 at the example packet on a ledger whose feature flag is off. -/
theorem OnRecvPacket_disabled_passthrough_witness :
    (OnRecvPacket demoEnv (demoState false (demoPair 17 true false))
      (demoPacket [0, 5, 6] "channel-9") demoAck).outcome = .returned demoAck :=
  (OnRecvPacket_disabled_passthrough demoEnv (demoState false (demoPair 17 true false))
    (demoPacket [0, 5, 6] "channel-9") demoAck
    ⟨demoDenom 0, "100", demoBech32 5, demoBech32 6, ""⟩ rfl rfl).1

/-- C4: for every packet that passes all pass-through checks, whose denomination
address is derived (at least 20 bytes) and for which no interface is registered
at the queried address, if construction and registration succeed then
`AddEVMExtensions` is invoked exactly once, the interface of the pair is
registered afterwards (this is the only state change), and the result is the
given acknowledgement unchanged. -/
theorem OnRecvPacket_activates_once (env : Env) (st : State) (packet : Packet)
    (ack : Acknowledgement) (data : FungibleTokenPacketData) (sender recipient : AccAddress)
    (pair : TokenPair) (denomAddr : List Nat)
    (hpass : PassesChecks env st packet data sender recipient pair)
    (haddr : env.GetIBCDenomAddress (receivedCoin env packet data).Denom = .ok denomAddr)
    (hlen : 20 ≤ denomAddr.length)
    (hnew : IsPrecompileRegistered st (queriedAddress env denomAddr) = false)
    (hcons : env.constructionError pair = none)
    (hreg : env.registrationError st.ActivePrecompiles ⟨pair⟩ = none) :
    (OnRecvPacket env st packet ack).outcome = .returned ack ∧
    (OnRecvPacket env st packet ack).calls.countP Call.isRegistration = 1 ∧
    Call.AddEVMExtensions ⟨pair⟩ ∈ (OnRecvPacket env st packet ack).calls ∧
    IsPrecompileRegistered (OnRecvPacket env st packet ack).state
      (env.AddressString (Precompile.Address ⟨pair⟩)) = true ∧
    (OnRecvPacket env st packet ack).state =
      { st with ActivePrecompiles :=
          st.ActivePrecompiles ++ [env.AddressString (Precompile.Address ⟨pair⟩)] } ∧
    (OnRecvPacket env st packet ack).calls.countP Call.isConversion = 0 := by
  rw [OnRecvPacket_of_passesChecks env st packet ack data sender recipient pair denomAddr
    hpass haddr hlen]
  simp only [hnew, NewPrecompile, hcons, AddEVMExtensions, hreg]
  simp [Call.isRegistration, Call.isConversion, IsPrecompileRegistered]

/-- C4 at the example packet: the first receive on the example ledger. -/
theorem OnRecvPacket_activates_once_witness :
    (OnRecvPacket demoEnv (demoState true (demoPair 17 true false))
      (demoPacket [0, 5, 6] "channel-9") demoAck).outcome = .returned demoAck ∧
    (OnRecvPacket demoEnv (demoState true (demoPair 17 true false))
      (demoPacket [0, 5, 6] "channel-9") demoAck).calls.countP Call.isRegistration = 1 :=
  have h := OnRecvPacket_activates_once demoEnv (demoState true (demoPair 17 true false))
    (demoPacket [0, 5, 6] "channel-9") demoAck
    ⟨demoDenom 0, "100", demoBech32 5, demoBech32 6, ""⟩
    (List.replicate 20 5) (List.replicate 20 6) (demoPair 17 true false) demoDenomAddr
    (demo_passesChecks 17) rfl (by decide) (by decide) rfl rfl
  ⟨h.1, h.2.1⟩

/-- C5: on the activation step (all checks pass, the address is derived, no
interface is registered at the queried address) a failure yields an error
acknowledgement and no registration.  If `NewPrecompile` fails with `err`, then
`AddEVMExtensions` is never called, the state is unchanged and the result is the
error acknowledgement of `err`; if `AddEVMExtensions` fails with `err`, the state
is unchanged and the result is the error acknowledgement of `err`.  In both
cases the result is an error response whatever acknowledgement was given, so it
is not the given acknowledgement passed through. -/
theorem OnRecvPacket_activation_failure (env : Env) (st : State) (packet : Packet)
    (ack : Acknowledgement) (data : FungibleTokenPacketData) (sender recipient : AccAddress)
    (pair : TokenPair) (denomAddr : List Nat)
    (hpass : PassesChecks env st packet data sender recipient pair)
    (haddr : env.GetIBCDenomAddress (receivedCoin env packet data).Denom = .ok denomAddr)
    (hlen : 20 ≤ denomAddr.length)
    (hnew : IsPrecompileRegistered st (queriedAddress env denomAddr) = false) :
    (∀ err, NewPrecompile env pair = .error err →
      (OnRecvPacket env st packet ack).outcome = .returned (NewErrorAcknowledgement err) ∧
      (OnRecvPacket env st packet ack).calls.countP Call.isRegistration = 0 ∧
      (OnRecvPacket env st packet ack).state = st ∧
      (NewErrorAcknowledgement err).isError = true ∧
      (ack.isError = false → (OnRecvPacket env st packet ack).outcome ≠ .returned ack)) ∧
    (∀ newPrecompile err, NewPrecompile env pair = .ok newPrecompile →
      AddEVMExtensions env st newPrecompile = .error err →
      (OnRecvPacket env st packet ack).outcome = .returned (NewErrorAcknowledgement err) ∧
      (OnRecvPacket env st packet ack).state = st ∧
      (NewErrorAcknowledgement err).isError = true ∧
      (ack.isError = false → (OnRecvPacket env st packet ack).outcome ≠ .returned ack)) := by
  rw [OnRecvPacket_of_passesChecks env st packet ack data sender recipient pair denomAddr
    hpass haddr hlen]
  constructor
  · intro err hcons
    simp only [hnew, hcons]
    refine ⟨by simp, by simp [Call.isRegistration], by simp, rfl, ?_⟩
    intro hack heq
    simp only [Bool.false_eq_true, if_false, Outcome.returned.injEq] at heq
    exact NewErrorAcknowledgement_ne err ack hack heq
  · intro newPrecompile err hcons hreg
    simp only [hnew, hcons, hreg]
    refine ⟨by simp, by simp, rfl, ?_⟩
    intro hack heq
    simp only [Bool.false_eq_true, if_false, Outcome.returned.injEq] at heq
    exact NewErrorAcknowledgement_ne err ack hack heq

/-- C5 at the example packet: with a failing constructor the first receive ends
in the error acknowledgement of the construction error, and on a ledger where
the address of the pair is already active the registration fails and the receive
ends in the error acknowledgement of the registration error. -/
theorem OnRecvPacket_activation_failure_witness :
    (OnRecvPacket demoEnvNoConstruction (demoState true (demoPair 17 true false))
      (demoPacket [0, 5, 6] "channel-9") demoAck).outcome =
      .returned (NewErrorAcknowledgement ⟨2, "error loading the ABI"⟩) ∧
    (OnRecvPacket demoEnv
      { demoState true (demoPair 17 true false) with
        ActivePrecompiles := ["0x1111111111111111111111111111111111111111"] }
      (demoPacket [0, 5, 6] "channel-9") demoAck).outcome =
      .returned (NewErrorAcknowledgement ⟨1, "precompile already registered"⟩) :=
  ⟨((OnRecvPacket_activation_failure demoEnvNoConstruction
      (demoState true (demoPair 17 true false)) (demoPacket [0, 5, 6] "channel-9") demoAck
      ⟨demoDenom 0, "100", demoBech32 5, demoBech32 6, ""⟩
      (List.replicate 20 5) (List.replicate 20 6) (demoPair 17 true false) demoDenomAddr
      ⟨rfl, rfl, ⟨_, _, rfl⟩, fun h => absurd h.1 (by decide), rfl, rfl,
        (by show ([1] : List Nat) ≠ []; decide), rfl, rfl, rfl⟩
      rfl (by decide) (by decide)).1 ⟨2, "error loading the ABI"⟩ rfl).1,
   ((OnRecvPacket_activation_failure demoEnv
      { demoState true (demoPair 17 true false) with
        ActivePrecompiles := ["0x1111111111111111111111111111111111111111"] }
      (demoPacket [0, 5, 6] "channel-9") demoAck
      ⟨demoDenom 0, "100", demoBech32 5, demoBech32 6, ""⟩
      (List.replicate 20 5) (List.replicate 20 6) (demoPair 17 true false) demoDenomAddr
      ⟨rfl, rfl, ⟨_, _, rfl⟩, fun h => absurd h.1 (by decide), rfl, rfl,
        (by show ([1] : List Nat) ≠ []; decide), rfl, rfl, rfl⟩
      rfl (by decide) (by decide)).2 ⟨demoPair 17 true false⟩
      ⟨1, "precompile already registered"⟩ rfl rfl).1⟩

/-- The scenario of the spec under its single-hop test and its prefixing rule:
the registry holds an enabled pair for `uatom`, and a packet with the
denomination `transfer/channel-0/uatom` that comes back over channel-0 is
received as `uatom`, passes the single-hop test and has the interface of the
pair registered; the given acknowledgement is returned. -/
theorem OnRecvPacket_spec_scenario :
    (receivedCoin demoEnvHops (demoPacket [0, 5, 6] "channel-9")
      ⟨demoDenom 0, "100", demoBech32 5, demoBech32 6, ""⟩).Denom = "uatom" ∧
    demoEnvHops.IsSingleHop (demoDenom 0) = true ∧
    (OnRecvPacket demoEnvHops (demoState true demoPairBase)
      (demoPacket [0, 5, 6] "channel-9") demoAck).outcome = .returned demoAck ∧
    (OnRecvPacket demoEnvHops (demoState true demoPairBase)
      (demoPacket [0, 5, 6] "channel-9") demoAck).state.ActivePrecompiles =
      ["0xabababababababababababababababababababab"] := by
  decide

/-- C6 as stated fails, in two ways.  First, the example packet carries a
denomination of two prefix segments, so that the received coin encodes more
than one hop, and a sender that does not resolve: on a ledger with the feature
enabled the receive ends in the error acknowledgement of the resolution error,
not in the given acknowledgement.  Second, the single-hop test of the callback
reads the denomination of the packet data, not that of the received coin: a
relayed packet whose denomination has one prefix segment passes the test, the
coin received for it has two prefix segments, and on a ledger that holds an
enabled pair for that coin the interface is constructed and registered. -/
theorem OnRecvPacket_multihop_unresolved_sender :
    (demoEnv.UnmarshalJSON (demoPacket [1, 0, 6] "channel-9").Data =
      .ok ⟨demoDenom 1, "100", demoBech32 0, demoBech32 6, ""⟩ ∧
     demoEnvHops.UnmarshalJSON (demoRelayed [0, 5, 6]).Data =
      .ok ⟨demoDenom 0, "100", demoBech32 5, demoBech32 6, ""⟩) ∧
    demoEnv.IsSingleHop (demoDenom 1) = false ∧
    1 < hopCount (receivedCoin demoEnv (demoPacket [1, 0, 6] "channel-9")
      ⟨demoDenom 1, "100", demoBech32 0, demoBech32 6, ""⟩).Denom ∧
    (OnRecvPacket demoEnv (demoState true (demoPair 17 true false))
      (demoPacket [1, 0, 6] "channel-9") demoAck).outcome =
      .returned (NewErrorAcknowledgement
        ⟨1, "invalid sender: empty address string is not allowed"⟩) ∧
    (OnRecvPacket demoEnv (demoState true (demoPair 17 true false))
      (demoPacket [1, 0, 6] "channel-9") demoAck).outcome ≠ .returned demoAck ∧
    hopCount (demoDenom 0) = 1 ∧
    demoEnvHops.IsSingleHop (demoDenom 0) = true ∧
    (receivedCoin demoEnvHops (demoRelayed [0, 5, 6])
      ⟨demoDenom 0, "100", demoBech32 5, demoBech32 6, ""⟩).Denom = demoTwoHop ∧
    hopCount (receivedCoin demoEnvHops (demoRelayed [0, 5, 6])
      ⟨demoDenom 0, "100", demoBech32 5, demoBech32 6, ""⟩).Denom = 2 ∧
    (OnRecvPacket demoEnvHops (demoState true demoPairTwoHop)
      (demoRelayed [0, 5, 6]) demoAck).calls.countP Call.isConstruction = 1 ∧
    (OnRecvPacket demoEnvHops (demoState true demoPairTwoHop)
      (demoRelayed [0, 5, 6]) demoAck).calls.countP Call.isRegistration = 1 ∧
    (OnRecvPacket demoEnvHops (demoState true demoPairTwoHop)
      (demoRelayed [0, 5, 6]) demoAck).state.ActivePrecompiles =
      ["0x1111111111111111111111111111111111111111"] :=
  ⟨⟨rfl, rfl⟩, by decide⟩

/-- C6 (amended): for every packet whose payload decodes with a denomination
that fails the single-hop test of the callback, which reads the denomination of
the packet data, and for every registry state, `OnRecvPacket` invokes neither
the precompile construction, nor the registration, nor a conversion and leaves
the state unchanged; it returns the given acknowledgement unchanged whenever the
feature is disabled or sender and receiver resolve, and the error
acknowledgement of the resolution error when the feature is enabled and they do
not.  With the single-hop test of the spec these are the packets whose
denomination does not carry exactly one prefix segment. -/
theorem OnRecvPacket_multihop_excluded (env : Env) (st : State) (packet : Packet)
    (ack : Acknowledgement) (data : FungibleTokenPacketData)
    (hdata : env.UnmarshalJSON packet.Data = .ok data)
    (hmulti : env.IsSingleHop data.Denom = false) :
    (OnRecvPacket env st packet ack).calls.countP Call.isConstruction = 0 ∧
    (OnRecvPacket env st packet ack).calls.countP Call.isRegistration = 0 ∧
    (OnRecvPacket env st packet ack).calls.countP Call.isConversion = 0 ∧
    (OnRecvPacket env st packet ack).state = st ∧
    ((IsERC20Enabled st = false ∨
        ∃ sender recipient sb rb,
          env.GetTransferSenderRecipient packet = .ok (sender, recipient, sb, rb)) →
      (OnRecvPacket env st packet ack).outcome = .returned ack) ∧
    (∀ err, IsERC20Enabled st = true → env.GetTransferSenderRecipient packet = .error err →
      (OnRecvPacket env st packet ack).outcome = .returned (NewErrorAcknowledgement err)) ∧
    (env.IsSingleHop = IsSingleHop → hopCount data.Denom ≠ 1) := by
  have hhops : env.IsSingleHop = IsSingleHop → hopCount data.Denom ≠ 1 := by
    intro henv hone
    rw [henv] at hmulti
    simp [IsSingleHop, hone] at hmulti
  cases hen : IsERC20Enabled st
  · simpa [OnRecvPacket, hdata, hen, Call.isConstruction, Call.isRegistration,
      Call.isConversion] using hhops
  · cases hres : env.GetTransferSenderRecipient packet with
    | error err =>
      simpa [OnRecvPacket, hdata, hen, hres, Call.isConstruction, Call.isRegistration,
        Call.isConversion] using hhops
    | ok res =>
      obtain ⟨sender, recipient, sb, rb⟩ := res
      cases hself : (sender == recipient && !IsEVMChannel st packet.DestinationChannel) <;>
        cases hmod : IsModuleAccount (GetAccount st sender) <;>
        simp only [OnRecvPacket, hdata, hen, hres, hmulti, hself, hmod] <;>
        simpa [Call.isConstruction, Call.isRegistration, Call.isConversion] using hhops

/-- C6 (amended) at a relayed packet whose denomination has two prefix segments
and whose sender resolves, with the single-hop test of the spec, on a ledger
that holds an enabled pair. -/
theorem OnRecvPacket_multihop_excluded_witness :
    hopCount (demoDenom 1) = 2 ∧
    (OnRecvPacket demoEnvHops (demoState true demoPairTwoHop)
      (demoRelayed [1, 5, 6]) demoAck).outcome = .returned demoAck ∧
    (OnRecvPacket demoEnvHops (demoState true demoPairTwoHop)
      (demoRelayed [1, 5, 6]) demoAck).calls.countP Call.isConstruction = 0 :=
  have h := OnRecvPacket_multihop_excluded demoEnvHops (demoState true demoPairTwoHop)
    (demoRelayed [1, 5, 6]) demoAck
    ⟨demoDenom 1, "100", demoBech32 5, demoBech32 6, ""⟩ rfl (by decide)
  ⟨by decide, h.2.2.2.2.1 (Or.inr ⟨_, _, _, _, rfl⟩), h.1⟩

/-- C7: with the feature enabled, for every packet whose resolved sender equals
its resolved receiver and whose destination channel is not an EVM channel,
`OnRecvPacket` returns the given acknowledgement unchanged and leaves the state
unchanged; it reads the feature flag and the claims parameters only: no query to
the account keeper or the registry, no construction and no registration. -/
theorem OnRecvPacket_self_transfer_exit (env : Env) (st : State) (packet : Packet)
    (ack : Acknowledgement) (data : FungibleTokenPacketData)
    (sender recipient : AccAddress) (sb rb : String)
    (hdata : env.UnmarshalJSON packet.Data = .ok data)
    (hen : IsERC20Enabled st = true)
    (hres : env.GetTransferSenderRecipient packet = .ok (sender, recipient, sb, rb))
    (heq : sender = recipient)
    (hch : IsEVMChannel st packet.DestinationChannel = false) :
    (OnRecvPacket env st packet ack).outcome = .returned ack ∧
    (OnRecvPacket env st packet ack).state = st ∧
    (OnRecvPacket env st packet ack).calls = [Call.IsERC20Enabled, Call.ClaimsGetParams] ∧
    ∀ c ∈ (OnRecvPacket env st packet ack).calls,
      c.isAccount = false ∧ c.isRegistry = false ∧ c.isConstruction = false ∧
      c.isRegistration = false := by
  simp [OnRecvPacket, hdata, hen, hres, heq, hch, Call.isAccount, Call.isRegistry,
    Call.isConstruction, Call.isRegistration]

/-- C7 at the example self-transfer on a channel that is no EVM channel. -/
theorem OnRecvPacket_self_transfer_exit_witness :
    (OnRecvPacket demoEnv (demoState true (demoPair 17 true false))
      (demoPacket [0, 5, 5] "channel-9") demoAck).calls =
      [Call.IsERC20Enabled, Call.ClaimsGetParams] :=
  (OnRecvPacket_self_transfer_exit demoEnv (demoState true (demoPair 17 true false))
    (demoPacket [0, 5, 5] "channel-9") demoAck
    ⟨demoDenom 0, "100", demoBech32 5, demoBech32 5, ""⟩
    (List.replicate 20 5) (List.replicate 20 5) (demoBech32 5) (demoBech32 5)
    rfl rfl rfl rfl (by decide)).2.2.1

/-- C8: a self-transfer on an EVM channel is evaluated normally.  For two packets
that agree on ports, channels, denomination and amount, the first with sender
equal to receiver and the second with the same sender and a different receiver,
received on an EVM channel, `OnRecvPacket` gives the same outcome, state and
collaborator calls; and with the feature enabled the self-transfer exit is not
taken: the account keeper is queried for the sender. -/
theorem OnRecvPacket_recovery_channel_self_transfer (env : Env) (st : State)
    (p1 p2 : Packet) (ack : Acknowledgement) (d1 d2 : FungibleTokenPacketData)
    (sender recipient : AccAddress) (sb rb sb2 rb2 : String)
    (hsp : p2.SourcePort = p1.SourcePort) (hsc : p2.SourceChannel = p1.SourceChannel)
    (hdp : p2.DestinationPort = p1.DestinationPort)
    (hdc : p2.DestinationChannel = p1.DestinationChannel)
    (hd1 : env.UnmarshalJSON p1.Data = .ok d1) (hd2 : env.UnmarshalJSON p2.Data = .ok d2)
    (hdenom : d2.Denom = d1.Denom) (hamount : d2.Amount = d1.Amount)
    (hr1 : env.GetTransferSenderRecipient p1 = .ok (sender, sender, sb, rb))
    (hr2 : env.GetTransferSenderRecipient p2 = .ok (sender, recipient, sb2, rb2))
    (hne : recipient ≠ sender)
    (hch : IsEVMChannel st p1.DestinationChannel = true) :
    OnRecvPacket env st p1 ack = OnRecvPacket env st p2 ack ∧
    (IsERC20Enabled st = true →
      Call.GetAccount sender ∈ (OnRecvPacket env st p1 ack).calls) := by
  have hne2 : (sender == recipient) = false := by
    simp only [beq_eq_false_iff_ne]
    exact fun h => hne h.symm
  constructor
  · simp only [OnRecvPacket, hd1, hd2, hr1, hr2, hsp, hsc, hdp, hdc, hdenom, hamount, hch,
      hne2, onRecvMetric]
    simp
  · intro hen
    simp only [OnRecvPacket, hd1, hr1, hen, hch]
    simp only [Bool.not_true, Bool.and_false, Bool.false_eq_true, if_false, Bool.not_eq_true]
    repeat (first | split | simp)

/-- C8 at the example packets on the EVM channel of the example ledger. -/
theorem OnRecvPacket_recovery_channel_self_transfer_witness :
    OnRecvPacket demoEnv (demoState true (demoPair 17 true false))
      (demoPacket [0, 5, 5] "channel-3") demoAck =
    OnRecvPacket demoEnv (demoState true (demoPair 17 true false))
      (demoPacket [0, 5, 6] "channel-3") demoAck :=
  (OnRecvPacket_recovery_channel_self_transfer demoEnv (demoState true (demoPair 17 true false))
    (demoPacket [0, 5, 5] "channel-3") (demoPacket [0, 5, 6] "channel-3") demoAck
    ⟨demoDenom 0, "100", demoBech32 5, demoBech32 5, ""⟩
    ⟨demoDenom 0, "100", demoBech32 5, demoBech32 6, ""⟩
    (List.replicate 20 5) (List.replicate 20 6) (demoBech32 5) (demoBech32 5)
    (demoBech32 5) (demoBech32 6)
    rfl rfl rfl rfl rfl rfl rfl rfl rfl rfl (by decide) (by decide)).1


/-- C9: for every packet that is not stopped by an earlier step (the payload
decodes, the feature is enabled, the addresses resolve, the self-transfer exit
is not taken), if the sender account is a module account then `OnRecvPacket`
returns the given acknowledgement unchanged, leaves the state unchanged and
performs no registry lookup, no construction and no registration.  A sender with
no account on the ledger is not treated as a module account: the callback goes
past the module-account exit, and for a single-hop denomination it looks the
received denomination up in the registry. -/
theorem OnRecvPacket_module_account_exit (env : Env) (st : State) (packet : Packet)
    (ack : Acknowledgement) (data : FungibleTokenPacketData)
    (sender recipient : AccAddress) (sb rb : String)
    (hdata : env.UnmarshalJSON packet.Data = .ok data)
    (hen : IsERC20Enabled st = true)
    (hres : env.GetTransferSenderRecipient packet = .ok (sender, recipient, sb, rb))
    (hself : ¬ (sender = recipient ∧ IsEVMChannel st packet.DestinationChannel = false)) :
    (∀ name, GetAccount st sender = some (.ModuleAccount name) →
      (OnRecvPacket env st packet ack).outcome = .returned ack ∧
      (OnRecvPacket env st packet ack).state = st ∧
      (OnRecvPacket env st packet ack).calls =
        [Call.IsERC20Enabled, Call.ClaimsGetParams, Call.GetAccount sender] ∧
      (OnRecvPacket env st packet ack).calls.countP Call.isRegistry = 0 ∧
      (OnRecvPacket env st packet ack).calls.countP Call.isConstruction = 0 ∧
      (OnRecvPacket env st packet ack).calls.countP Call.isRegistration = 0) ∧
    (GetAccount st sender = none →
      IsModuleAccount (GetAccount st sender) = false ∧
      (env.IsSingleHop data.Denom = true →
        Call.GetTokenPairID (receivedCoin env packet data).Denom ∈
          (OnRecvPacket env st packet ack).calls)) := by
  have hself2 := selfTransfer_test_false st packet sender recipient hself
  constructor
  · intro name hacc
    simp only [OnRecvPacket, hdata, hen, hres, hself2, hacc, IsModuleAccount]
    simp [Call.isRegistry, Call.isConstruction, Call.isRegistration]
  · intro hacc
    refine ⟨by rw [hacc]; rfl, ?_⟩
    intro hsingle
    simp only [OnRecvPacket, hdata, hen, hres, hself2, hacc, IsModuleAccount, hsingle,
      receivedCoin]
    simp only [Bool.not_true, Bool.false_eq_true, if_false]
    repeat (first | split | simp)

/-- C9 at the example packets: the sender of byte 7 is a module account of the
example ledger, the sender of byte 9 has no account. -/
theorem OnRecvPacket_module_account_exit_witness :
    (OnRecvPacket demoEnv (demoState true (demoPair 17 true false))
      (demoPacket [0, 7, 6] "channel-9") demoAck).calls =
      [Call.IsERC20Enabled, Call.ClaimsGetParams, Call.GetAccount (List.replicate 20 7)] ∧
    Call.GetTokenPairID demoVoucher ∈
      (OnRecvPacket demoEnv (demoState true (demoPair 17 true false))
        (demoPacket [0, 9, 6] "channel-9") demoAck).calls :=
  ⟨((OnRecvPacket_module_account_exit demoEnv (demoState true (demoPair 17 true false))
      (demoPacket [0, 7, 6] "channel-9") demoAck
      ⟨demoDenom 0, "100", demoBech32 7, demoBech32 6, ""⟩
      (List.replicate 20 7) (List.replicate 20 6) (demoBech32 7) (demoBech32 6)
      rfl rfl rfl (fun h => absurd h.1 (by decide))).1 "transfer" rfl).2.2.1,
   ((OnRecvPacket_module_account_exit demoEnv (demoState true (demoPair 17 true false))
      (demoPacket [0, 9, 6] "channel-9") demoAck
      ⟨demoDenom 0, "100", demoBech32 9, demoBech32 6, ""⟩
      (List.replicate 20 9) (List.replicate 20 6) (demoBech32 9) (demoBech32 6)
      rfl rfl rfl (fun h => absurd h.1 (by decide))).2 rfl).2 rfl⟩

/-- C10 as stated fails: the example packet carries a denomination without a
pair in the registry and a sender that does not resolve; on a ledger with the
feature enabled the receive ends in an error acknowledgement, not in the given
acknowledgement. -/
theorem OnRecvPacket_unregistered_unresolved_sender :
    demoEnv.UnmarshalJSON (demoPacket [2, 0, 6] "channel-9").Data =
      .ok ⟨demoDenom 2, "100", demoBech32 0, demoBech32 6, ""⟩ ∧
    GetTokenPairID (demoState true (demoPair 17 true false))
      (receivedCoin demoEnv (demoPacket [2, 0, 6] "channel-9")
        ⟨demoDenom 2, "100", demoBech32 0, demoBech32 6, ""⟩).Denom = [] ∧
    (OnRecvPacket demoEnv (demoState true (demoPair 17 true false))
      (demoPacket [2, 0, 6] "channel-9") demoAck).outcome =
      .returned (NewErrorAcknowledgement
        ⟨1, "invalid sender: empty address string is not allowed"⟩) ∧
    (OnRecvPacket demoEnv (demoState true (demoPair 17 true false))
      (demoPacket [2, 0, 6] "channel-9") demoAck).outcome ≠ .returned demoAck :=
  ⟨rfl, by decide⟩

/-- C10 (amended): for every packet whose payload decodes and whose received
denomination has no pair in the registry, or a disabled pair, or a native-coin
pair, `OnRecvPacket` makes no precompile construction or registration call and
leaves the state unchanged; it returns the given acknowledgement unchanged
whenever the feature is disabled or sender and receiver resolve, and the error
acknowledgement of the resolution error when the feature is enabled and they do
not. -/
theorem OnRecvPacket_no_eligible_pair (env : Env) (st : State) (packet : Packet)
    (ack : Acknowledgement) (data : FungibleTokenPacketData)
    (hdata : env.UnmarshalJSON packet.Data = .ok data)
    (hpair : GetTokenPairID st (receivedCoin env packet data).Denom = [] ∨
      (GetTokenPair st (GetTokenPairID st (receivedCoin env packet data).Denom)).1.Enabled
        = false ∨
      (GetTokenPair st
        (GetTokenPairID st (receivedCoin env packet data).Denom)).1.IsNativeCoin = true) :
    (OnRecvPacket env st packet ack).calls.countP Call.isConstruction = 0 ∧
    (OnRecvPacket env st packet ack).calls.countP Call.isRegistration = 0 ∧
    (OnRecvPacket env st packet ack).state = st ∧
    ((IsERC20Enabled st = false ∨
        ∃ sender recipient sb rb,
          env.GetTransferSenderRecipient packet = .ok (sender, recipient, sb, rb)) →
      (OnRecvPacket env st packet ack).outcome = .returned ack) ∧
    (∀ err, IsERC20Enabled st = true → env.GetTransferSenderRecipient packet = .error err →
      (OnRecvPacket env st packet ack).outcome = .returned (NewErrorAcknowledgement err)) := by
  simp only [receivedCoin] at hpair
  cases hen : IsERC20Enabled st
  · simp [OnRecvPacket, hdata, hen, Call.isConstruction, Call.isRegistration]
  · cases hres : env.GetTransferSenderRecipient packet with
    | error err =>
      simp [OnRecvPacket, hdata, hen, hres, Call.isConstruction, Call.isRegistration]
    | ok res =>
      obtain ⟨sender, recipient, sb, rb⟩ := res
      have hexit : ((GetTokenPairID st (env.GetReceivedCoin packet.SourcePort
            packet.SourceChannel packet.DestinationPort packet.DestinationChannel
            data.Denom data.Amount).Denom).length == 0) = false →
          (!(GetTokenPair st (GetTokenPairID st (env.GetReceivedCoin packet.SourcePort
            packet.SourceChannel packet.DestinationPort packet.DestinationChannel
            data.Denom data.Amount).Denom)).1.Enabled ||
            (GetTokenPair st (GetTokenPairID st (env.GetReceivedCoin packet.SourcePort
            packet.SourceChannel packet.DestinationPort packet.DestinationChannel
            data.Denom data.Amount).Denom)).1.IsNativeCoin) = true := by
        intro hlen
        rcases hpair with h | h | h
        · rw [h] at hlen
          exact absurd hlen (by decide)
        · rw [h]; rfl
        · rw [h]; exact Bool.or_true _
      cases hself : (sender == recipient && !IsEVMChannel st packet.DestinationChannel) <;>
        cases hmod : IsModuleAccount (GetAccount st sender) <;>
        cases hsingle : env.IsSingleHop data.Denom <;>
        cases hlen : ((GetTokenPairID st (env.GetReceivedCoin packet.SourcePort
            packet.SourceChannel packet.DestinationPort packet.DestinationChannel
            data.Denom data.Amount).Denom).length == 0) <;>
        (try have hx := hexit hlen) <;>
        simp only [OnRecvPacket, hdata, hen, hres, hself, hmod, hsingle, hlen] <;>
        (try simp only [hx]) <;>
        simp [Call.isConstruction, Call.isRegistration]

/-- C10 (amended) at the example packet of a denomination without a pair and a
resolvable sender. -/
theorem OnRecvPacket_no_eligible_pair_witness :
    (OnRecvPacket demoEnv (demoState true (demoPair 17 true false))
      (demoPacket [2, 5, 6] "channel-9") demoAck).outcome = .returned demoAck :=
  (OnRecvPacket_no_eligible_pair demoEnv (demoState true (demoPair 17 true false))
    (demoPacket [2, 5, 6] "channel-9") demoAck
    ⟨demoDenom 2, "100", demoBech32 5, demoBech32 6, ""⟩ rfl
    (Or.inl (by decide))).2.2.2.1 (Or.inr ⟨_, _, _, _, rfl⟩)


/-- The path condition does not depend on the active precompiles. -/
theorem PassesChecks_of_activePrecompiles (env : Env) (st : State) (packet : Packet)
    (data : FungibleTokenPacketData) (sender recipient : AccAddress) (pair : TokenPair)
    (active : List String)
    (hpass : PassesChecks env st packet data sender recipient pair) :
    PassesChecks env { st with ActivePrecompiles := active } packet data sender recipient pair :=
  hpass

/-- C2: activation is idempotent.  For every state and every packet on which
`OnRecvPacket` reaches the activation step (the checks pass, the address is
derived, no interface is active at the queried address) and registers the
interface successfully (construction and registration do not fail), where the
interface of the pair lives at the address the callback queries, a second
receive of the same packet on the resulting state makes no registration call,
returns the given acknowledgement unchanged, leaves the state as the first
receive left it, and the address of the pair is active exactly once. -/
theorem OnRecvPacket_second_receive_of_same_address (env : Env) (st : State)
    (packet : Packet) (ack : Acknowledgement) (data : FungibleTokenPacketData)
    (sender recipient : AccAddress) (pair : TokenPair) (denomAddr : List Nat)
    (hpass : PassesChecks env st packet data sender recipient pair)
    (haddr : env.GetIBCDenomAddress (receivedCoin env packet data).Denom = .ok denomAddr)
    (hlen : 20 ≤ denomAddr.length)
    (hnew : IsPrecompileRegistered st (queriedAddress env denomAddr) = false)
    (hcons : env.constructionError pair = none)
    (hreg : env.registrationError st.ActivePrecompiles ⟨pair⟩ = none)
    (hsame : queriedAddress env denomAddr = env.AddressString (Precompile.Address ⟨pair⟩)) :
    (OnRecvPacket env (OnRecvPacket env st packet ack).state packet ack).outcome
      = .returned ack ∧
    (OnRecvPacket env (OnRecvPacket env st packet ack).state packet ack).calls.countP
      Call.isRegistration = 0 ∧
    (OnRecvPacket env (OnRecvPacket env st packet ack).state packet ack).state =
      (OnRecvPacket env st packet ack).state ∧
    (OnRecvPacket env st packet ack).state.ActivePrecompiles.count
      (env.AddressString (Precompile.Address ⟨pair⟩)) = 1 := by
  have hfirst : (OnRecvPacket env st packet ack).state =
      { st with ActivePrecompiles :=
          st.ActivePrecompiles ++ [env.AddressString (Precompile.Address ⟨pair⟩)] } := by
    rw [OnRecvPacket_of_passesChecks env st packet ack data sender recipient pair denomAddr
      hpass haddr hlen]
    simp only [hnew, NewPrecompile, hcons, AddEVMExtensions, hreg]
    simp
  have hfound : IsPrecompileRegistered
      { st with ActivePrecompiles :=
          st.ActivePrecompiles ++ [env.AddressString (Precompile.Address ⟨pair⟩)] }
      (queriedAddress env denomAddr) = true := by
    rw [hsame]
    simp [IsPrecompileRegistered]
  have hcount : st.ActivePrecompiles.count
      (env.AddressString (Precompile.Address ⟨pair⟩)) = 0 := by
    rw [hsame] at hnew
    simp only [IsPrecompileRegistered] at hnew
    rw [List.count_eq_zero]
    intro hmem
    have : st.ActivePrecompiles.contains
        (env.AddressString (Precompile.Address ⟨pair⟩)) = true := by
      simpa using hmem
    rw [this] at hnew
    exact Bool.noConfusion hnew
  rw [hfirst]
  rw [OnRecvPacket_of_passesChecks env _ packet ack data sender recipient pair denomAddr
    (PassesChecks_of_activePrecompiles env st packet data sender recipient pair _ hpass)
    haddr hlen]
  simp only [hfound]
  simp [Call.isRegistration, hcount]

/-- C2 at the example packet, on a ledger whose pair lives at the first 20
bytes derived from the voucher denomination: the second receive returns the
given acknowledgement and makes no registration call. -/
theorem OnRecvPacket_second_receive_of_same_address_witness :
    (OnRecvPacket demoEnv
      (OnRecvPacket demoEnv (demoState true demoPairDerived)
        (demoPacket [0, 5, 6] "channel-9") demoAck).state
      (demoPacket [0, 5, 6] "channel-9") demoAck).outcome = .returned demoAck ∧
    (OnRecvPacket demoEnv
      (OnRecvPacket demoEnv (demoState true demoPairDerived)
        (demoPacket [0, 5, 6] "channel-9") demoAck).state
      (demoPacket [0, 5, 6] "channel-9") demoAck).calls.countP Call.isRegistration = 0 :=
  have h := OnRecvPacket_second_receive_of_same_address demoEnv
    (demoState true demoPairDerived) (demoPacket [0, 5, 6] "channel-9") demoAck
    ⟨demoDenom 0, "100", demoBech32 5, demoBech32 6, ""⟩
    (List.replicate 20 5) (List.replicate 20 6) demoPairDerived demoDenomAddr
    ⟨rfl, rfl, ⟨_, _, rfl⟩, fun h => absurd h.1 (by decide), rfl, rfl,
      (by show ([1] : List Nat) ≠ []; decide), rfl, rfl, rfl⟩
    rfl (by decide) (by decide) rfl rfl (by decide)
  ⟨h.1, h.2.1⟩

/-! ## The receive callback: further claims -/

/-- C11: for every packet whose payload does not decode, whatever the feature
flag holds, `OnRecvPacket` returns the error acknowledgement built from the
invalid-type error (code 29) with the description "cannot unmarshal ICS-20
transfer packet data", leaves the state unchanged and calls no collaborator.
The result is an error response whatever acknowledgement was given, so it is not
the given acknowledgement passed through. -/
theorem OnRecvPacket_undecodable_payload (env : Env) (st : State) (packet : Packet)
    (ack : Acknowledgement) (err : Error)
    (hdata : env.UnmarshalJSON packet.Data = .error err) :
    OnRecvPacket env st packet ack =
      ⟨.returned (NewErrorAcknowledgement
        (Wrapf ErrInvalidType "cannot unmarshal ICS-20 transfer packet data")), st, []⟩ ∧
    Wrapf ErrInvalidType "cannot unmarshal ICS-20 transfer packet data" =
      ⟨29, "cannot unmarshal ICS-20 transfer packet data: invalid type"⟩ ∧
    (NewErrorAcknowledgement
      (Wrapf ErrInvalidType "cannot unmarshal ICS-20 transfer packet data")).isError = true ∧
    (ack.isError = false → (OnRecvPacket env st packet ack).outcome ≠ .returned ack) := by
  have hrun : OnRecvPacket env st packet ack =
      ⟨.returned (NewErrorAcknowledgement
        (Wrapf ErrInvalidType "cannot unmarshal ICS-20 transfer packet data")), st, []⟩ := by
    simp [OnRecvPacket, hdata]
  refine ⟨hrun, by decide, rfl, ?_⟩
  intro hack heq
  rw [hrun] at heq
  exact NewErrorAcknowledgement_ne _ ack hack (Outcome.returned.inj heq)

/-- C11 at an example packet whose payload has two bytes only, with the feature
enabled and with the feature disabled. -/
theorem OnRecvPacket_undecodable_payload_witness :
    (OnRecvPacket demoEnv (demoState true (demoPair 17 true false))
      (demoPacket [0, 5] "channel-9") demoAck).calls = [] ∧
    (OnRecvPacket demoEnv (demoState false (demoPair 17 true false))
      (demoPacket [0, 5] "channel-9") demoAck).outcome =
      .returned (NewErrorAcknowledgement
        (Wrapf ErrInvalidType "cannot unmarshal ICS-20 transfer packet data")) :=
  ⟨congrArg Run.calls (OnRecvPacket_undecodable_payload demoEnv
      (demoState true (demoPair 17 true false)) (demoPacket [0, 5] "channel-9") demoAck
      ⟨1, "invalid character"⟩ rfl).1,
   congrArg Run.outcome (OnRecvPacket_undecodable_payload demoEnv
      (demoState false (demoPair 17 true false)) (demoPacket [0, 5] "channel-9") demoAck
      ⟨1, "invalid character"⟩ rfl).1⟩

/-- A successful registration changes the active precompiles only. -/
theorem AddEVMExtensions_frame (env : Env) (st st2 : State) (precompile : Precompile)
    (h : AddEVMExtensions env st precompile = .ok st2) :
    st2 = { st with ActivePrecompiles := st2.ActivePrecompiles } := by
  unfold AddEVMExtensions at h
  split at h
  · exact Except.noConfusion h
  · cases h
    rfl

/-- The receive callback makes no conversion call, and it leaves the state as it
was or as one successful `AddEVMExtensions` call of its log left it. -/
theorem OnRecvPacket_writes (env : Env) (st : State) (packet : Packet)
    (ack : Acknowledgement) :
    (OnRecvPacket env st packet ack).calls.countP Call.isConversion = 0 ∧
    ((OnRecvPacket env st packet ack).state = st ∨
      ∃ precompile, Call.AddEVMExtensions precompile ∈ (OnRecvPacket env st packet ack).calls ∧
        AddEVMExtensions env st precompile = .ok (OnRecvPacket env st packet ack).state) := by
  cases hdata : env.UnmarshalJSON packet.Data with
  | error e => simp [OnRecvPacket, hdata, Call.isConversion]
  | ok data =>
  cases hen : IsERC20Enabled st with
  | false => simp [OnRecvPacket, hdata, hen, Call.isConversion]
  | true =>
  cases hres : env.GetTransferSenderRecipient packet with
  | error e => simp [OnRecvPacket, hdata, hen, hres, Call.isConversion]
  | ok res =>
  obtain ⟨sender, recipient, sb, rb⟩ := res
  cases hself : (sender == recipient && !IsEVMChannel st packet.DestinationChannel) with
  | true =>
    simp only [OnRecvPacket, hdata, hen, hres, hself]
    simp [Call.isConversion]
  | false =>
  cases hmod : IsModuleAccount (GetAccount st sender) with
  | true =>
    simp only [OnRecvPacket, hdata, hen, hres, hself, hmod]
    simp [Call.isConversion]
  | false =>
  cases hsingle : env.IsSingleHop data.Denom with
  | false =>
    simp only [OnRecvPacket, hdata, hen, hres, hself, hmod, hsingle]
    simp [Call.isConversion]
  | true =>
  cases hlen : ((GetTokenPairID st (receivedCoin env packet data).Denom).length == 0) with
  | true =>
    simp only [receivedCoin] at hlen
    simp only [OnRecvPacket, hdata, hen, hres, hself, hmod, hsingle, hlen]
    simp [Call.isConversion]
  | false =>
  cases hpair : (!(GetTokenPair st (GetTokenPairID st
      (receivedCoin env packet data).Denom)).1.Enabled ||
      (GetTokenPair st (GetTokenPairID st
        (receivedCoin env packet data).Denom)).1.IsNativeCoin) with
  | true =>
    simp only [receivedCoin] at hlen hpair
    simp only [OnRecvPacket, hdata, hen, hres, hself, hmod, hsingle, hlen, hpair]
    simp [Call.isConversion]
  | false =>
  cases haddr : env.GetIBCDenomAddress (receivedCoin env packet data).Denom with
  | error e =>
    simp only [receivedCoin] at hlen hpair haddr
    simp only [OnRecvPacket, hdata, hen, hres, hself, hmod, hsingle, hlen, hpair, haddr]
    simp [Call.isConversion]
  | ok denomAddr =>
  by_cases hl : denomAddr.length < 20
  · simp only [receivedCoin] at hlen hpair haddr
    simp only [OnRecvPacket, hdata, hen, hres, hself, hmod, hsingle, hlen, hpair, haddr, hl]
    simp [Call.isConversion]
  · have hpass : PassesChecks env st packet data sender recipient
        (GetTokenPair st (GetTokenPairID st (receivedCoin env packet data).Denom)).1 := by
      refine ⟨hdata, hen, ⟨sb, rb, hres⟩, ?_, hmod, hsingle, ?_, rfl, ?_, ?_⟩
      · intro h
        simp [h.1, h.2] at hself
      · intro h
        simp [h] at hlen
      · cases h : (GetTokenPair st (GetTokenPairID st
          (receivedCoin env packet data).Denom)).1.Enabled
        · simp [h] at hpair
        · rfl
      · cases h : (GetTokenPair st (GetTokenPairID st
          (receivedCoin env packet data).Denom)).1.IsNativeCoin
        · rfl
        · simp [h] at hpair
    rw [OnRecvPacket_of_passesChecks env st packet ack data sender recipient _ denomAddr
      hpass haddr (by omega)]
    cases hfound : IsPrecompileRegistered st (queriedAddress env denomAddr) with
    | true => simp [Call.isConversion]
    | false =>
      cases hcons : NewPrecompile env (GetTokenPair st (GetTokenPairID st
          (receivedCoin env packet data).Denom)).1 with
      | error e => simp [Call.isConversion]
      | ok newPrecompile =>
        cases hreg : AddEVMExtensions env st newPrecompile with
        | error e =>
          simp only [hreg]
          simp [Call.isConversion]
        | ok st2 =>
          simp only [hreg]
          simp [Call.isConversion, hreg]

/-- C12: `OnRecvPacket` never converts value.  For every input its log holds no
`ConvertCoin` call; the state it leaves is the given state, or the state left
by one successful `AddEVMExtensions` call of its log, so it differs from the
given state in the active precompiles at most; every ledger-native and every
contract-callable balance is the same after the call as before. -/
theorem OnRecvPacket_moves_no_value (env : Env) (st : State) (packet : Packet)
    (ack : Acknowledgement) :
    (OnRecvPacket env st packet ack).calls.countP Call.isConversion = 0 ∧
    ((OnRecvPacket env st packet ack).state = st ∨
      ∃ precompile, Call.AddEVMExtensions precompile ∈ (OnRecvPacket env st packet ack).calls ∧
        AddEVMExtensions env st precompile = .ok (OnRecvPacket env st packet ack).state) ∧
    (OnRecvPacket env st packet ack).state =
      { st with ActivePrecompiles := (OnRecvPacket env st packet ack).state.ActivePrecompiles } ∧
    (∀ addr denom, GetBalance (OnRecvPacket env st packet ack).state addr denom =
      GetBalance st addr denom) ∧
    (∀ denom account, BalanceOf (OnRecvPacket env st packet ack).state denom account =
      BalanceOf st denom account) := by
  obtain ⟨hconv, hstate⟩ := OnRecvPacket_writes env st packet ack
  have hframe : (OnRecvPacket env st packet ack).state =
      { st with
        ActivePrecompiles := (OnRecvPacket env st packet ack).state.ActivePrecompiles } := by
    rcases hstate with h | ⟨precompile, _, h⟩
    · rw [h]
    · exact AddEVMExtensions_frame env st _ precompile h
  refine ⟨hconv, hstate, hframe, ?_, ?_⟩
  · intro addr denom
    rw [hframe]
    rfl
  · intro denom account
    rw [hframe]
    rfl

/-! ## The acknowledgement and timeout callbacks: claims -/

/-- Under the path condition, the refund is decided by the conversion alone. -/
theorem ConvertCoinToERC20FromPacket_of_reachesConversion (env : Env) (st : State)
    (data : FungibleTokenPacketData) (sender : AccAddress) (pair : TokenPair)
    (hreach : ReachesConversion env st data sender pair) :
    ConvertCoinToERC20FromPacket env st data =
      let readCalls : List Call :=
        [.IsERC20Enabled, .GetAccount sender, .GetTokenPairID data.Denom,
          .GetTokenPair (GetTokenPairID st data.Denom)]
      match ConvertCoin env st (refundMsg env data sender) with
      | .error err =>
        ⟨.returned (some err), st, readCalls ++ [.ConvertCoin (refundMsg env data sender)]⟩
      | .ok st2 =>
        ⟨.returned none, st2,
          readCalls ++ [.ConvertCoin (refundMsg env data sender), .IncrCounter convertMetric]⟩ := by
  obtain ⟨h1, h2, h3, h4, h5, h6, h7⟩ := hreach
  subst h5
  simp [ConvertCoinToERC20FromPacket, h1, h2, h3, h4, h6, h7, refundMsg]

/-- An address of 20 bytes is its own 20-byte address. -/
theorem BytesToAddress_of_length (b : List Nat) (h : b.length = 20) : BytesToAddress b = b := by
  simp [BytesToAddress, h]

/-- The example refund reaches the conversion step on the example ledger. -/
theorem demo_reachesConversion (amount : String) :
    ReachesConversion demoEnv (demoState true (demoPair 17 true false)) (demoSent 5 amount)
      (List.replicate 20 5) (demoPair 17 true false) :=
  ⟨rfl, rfl, rfl, (by show ([1] : List Nat) ≠ []; decide), rfl, rfl, rfl⟩

/-- C13: for every packet, packet data and state, and every acknowledgement that
is not an error acknowledgement (a result, or no response at all),
`OnAcknowledgementPacket` returns nil, leaves the state unchanged and makes no
collaborator call; in particular it makes no conversion. -/
theorem OnAcknowledgementPacket_success_noop (env : Env) (st : State) (packet : Packet)
    (data : FungibleTokenPacketData) (ack : Acknowledgement)
    (hack : ack.isError = false) :
    OnAcknowledgementPacket env st packet data ack = ⟨.returned none, st, []⟩ ∧
    (OnAcknowledgementPacket env st packet data ack).calls.countP Call.isConversion = 0 := by
  have hrun : OnAcknowledgementPacket env st packet data ack = ⟨.returned none, st, []⟩ := by
    obtain ⟨response⟩ := ack
    cases response with
    | none => rfl
    | some r =>
      cases r with
      | Acknowledgement_Result bz => rfl
      | Acknowledgement_Error text => exact Bool.noConfusion hack
  rw [hrun]
  exact ⟨rfl, rfl⟩

/-- C13 at the example refund and a successful acknowledgement. -/
theorem OnAcknowledgementPacket_success_noop_witness :
    OnAcknowledgementPacket demoEnv (demoState true (demoPair 17 true false))
      (demoPacket [0, 5, 6] "channel-9") (demoSent 5 "100") demoAck =
      ⟨.returned none, demoState true (demoPair 17 true false), []⟩ :=
  (OnAcknowledgementPacket_success_noop demoEnv (demoState true (demoPair 17 true false))
    (demoPacket [0, 5, 6] "channel-9") (demoSent 5 "100") demoAck rfl).1

/-- C14: a timeout is treated as a failed acknowledgement.  For every state and
packet data, `OnTimeoutPacket` on any packet, `OnAcknowledgementPacket` on any
packet and any error acknowledgement, and `ConvertCoinToERC20FromPacket` give
the same run: the same returned error, the same state and the same collaborator
calls.  Neither the packet argument nor the error text of the acknowledgement
enters the result. -/
theorem OnTimeoutPacket_eq_failed_acknowledgement (env : Env) (st : State)
    (p1 p2 : Packet) (data : FungibleTokenPacketData) (ack : Acknowledgement)
    (hack : ack.isError = true) :
    OnTimeoutPacket env st p1 data = ConvertCoinToERC20FromPacket env st data ∧
    OnAcknowledgementPacket env st p2 data ack = ConvertCoinToERC20FromPacket env st data ∧
    OnTimeoutPacket env st p1 data = OnAcknowledgementPacket env st p2 data ack := by
  have hackRun : OnAcknowledgementPacket env st p2 data ack =
      ConvertCoinToERC20FromPacket env st data := by
    obtain ⟨response⟩ := ack
    cases response with
    | none => exact Bool.noConfusion hack
    | some r =>
      cases r with
      | Acknowledgement_Result bz => exact Bool.noConfusion hack
      | Acknowledgement_Error text => rfl
  exact ⟨rfl, hackRun, hackRun.symm⟩

/-- C14 at the example refund: a timeout of one packet and a failed
acknowledgement of another packet give the same run. -/
theorem OnTimeoutPacket_eq_failed_acknowledgement_witness :
    OnTimeoutPacket demoEnv (demoState true (demoPair 17 true false))
      (demoPacket [0, 5, 6] "channel-9") (demoSent 5 "100") =
    OnAcknowledgementPacket demoEnv (demoState true (demoPair 17 true false))
      (demoPacket [1, 5, 5] "channel-3") (demoSent 5 "100")
      (NewErrorAcknowledgement ⟨7, "some failure"⟩) :=
  (OnTimeoutPacket_eq_failed_acknowledgement demoEnv (demoState true (demoPair 17 true false))
    (demoPacket [0, 5, 6] "channel-9") (demoPacket [1, 5, 5] "channel-3") (demoSent 5 "100")
    (NewErrorAcknowledgement ⟨7, "some failure"⟩) rfl).2.2

/-- C15: when every check of the refund passes (the sender decodes, the feature
is enabled, the sender is no module account, an enabled pair that is not a
native-coin pair is registered for `data.Denom`), `ConvertCoinToERC20FromPacket`
invokes `ConvertCoin` exactly once, with the message whose coin is
`GetSentCoin(data.Denom, data.Amount)`, whose sender is the decoded sender and
whose receiver is the 20-byte address of the decoded sender; that receiver is
the sender itself whenever the sender address is 20 bytes long. -/
theorem ConvertCoinToERC20FromPacket_converts_once (env : Env) (st : State)
    (data : FungibleTokenPacketData) (sender : AccAddress) (pair : TokenPair)
    (hreach : ReachesConversion env st data sender pair) :
    (ConvertCoinToERC20FromPacket env st data).calls.filter Call.isConversion =
      [Call.ConvertCoin (refundMsg env data sender)] ∧
    (ConvertCoinToERC20FromPacket env st data).calls.countP Call.isConversion = 1 ∧
    (refundMsg env data sender).Coin = env.GetSentCoin data.Denom data.Amount ∧
    (refundMsg env data sender).Sender = sender ∧
    (refundMsg env data sender).Receiver = BytesToAddress sender ∧
    (sender.length = 20 → (refundMsg env data sender).Receiver = sender) := by
  rw [ConvertCoinToERC20FromPacket_of_reachesConversion env st data sender pair hreach]
  refine ⟨?_, ?_, rfl, rfl, rfl, fun h => BytesToAddress_of_length sender h⟩
  · cases hconv : ConvertCoin env st (refundMsg env data sender) <;>
      simp [Call.isConversion, List.filter]
  · cases hconv : ConvertCoin env st (refundMsg env data sender) <;>
      simp [Call.isConversion]

/-- C15 at the example refund of 100 units by the account of byte 5. -/
theorem ConvertCoinToERC20FromPacket_converts_once_witness :
    (ConvertCoinToERC20FromPacket demoEnv (demoState true (demoPair 17 true false))
      (demoSent 5 "100")).calls.filter Call.isConversion =
      [Call.ConvertCoin ⟨⟨demoVoucher, 100⟩, List.replicate 20 5, List.replicate 20 5⟩] :=
  (ConvertCoinToERC20FromPacket_converts_once demoEnv (demoState true (demoPair 17 true false))
    (demoSent 5 "100") (List.replicate 20 5) (demoPair 17 true false)
    (demo_reachesConversion "100")).1

/-- C16: for every packet data whose sender does not decode, whatever the feature
flag and the registry hold, `ConvertCoinToERC20FromPacket` returns the decode
error, leaves the state unchanged and calls no collaborator; so do
`OnTimeoutPacket` and `OnAcknowledgementPacket` on an error acknowledgement. -/
theorem ConvertCoinToERC20FromPacket_undecodable_sender (env : Env) (st : State)
    (packet : Packet) (data : FungibleTokenPacketData) (ack : Acknowledgement) (err : Error)
    (hsender : env.AccAddressFromBech32 data.Sender = .error err)
    (hack : ack.isError = true) :
    ConvertCoinToERC20FromPacket env st data = ⟨.returned (some err), st, []⟩ ∧
    OnTimeoutPacket env st packet data = ⟨.returned (some err), st, []⟩ ∧
    OnAcknowledgementPacket env st packet data ack = ⟨.returned (some err), st, []⟩ := by
  have hrun : ConvertCoinToERC20FromPacket env st data = ⟨.returned (some err), st, []⟩ := by
    simp [ConvertCoinToERC20FromPacket, hsender]
  refine ⟨hrun, hrun, ?_⟩
  obtain ⟨response⟩ := ack
  cases response with
  | none => exact Bool.noConfusion hack
  | some r =>
    cases r with
    | Acknowledgement_Result bz => exact Bool.noConfusion hack
    | Acknowledgement_Error text => exact hrun

/-- C16 at the example refund with an empty sender text, on a ledger with the
feature enabled and an eligible pair. -/
theorem ConvertCoinToERC20FromPacket_undecodable_sender_witness :
    ConvertCoinToERC20FromPacket demoEnv (demoState true (demoPair 17 true false))
      (demoSent 0 "100") =
      ⟨.returned (some ⟨1, "empty address string is not allowed"⟩),
        demoState true (demoPair 17 true false), []⟩ :=
  (ConvertCoinToERC20FromPacket_undecodable_sender demoEnv
    (demoState true (demoPair 17 true false)) (demoPacket [0, 5, 6] "channel-9")
    (demoSent 0 "100") (NewErrorAcknowledgement ⟨7, "some failure"⟩)
    ⟨1, "empty address string is not allowed"⟩ rfl rfl).1

/-- C17 as stated fails: with the feature disabled, the example refund with an
empty sender text returns the decode error, not nil. -/
theorem ConvertCoinToERC20FromPacket_disabled_undecodable_sender :
    IsERC20Enabled (demoState false (demoPair 17 true false)) = false ∧
    (ConvertCoinToERC20FromPacket demoEnv (demoState false (demoPair 17 true false))
      (demoSent 0 "100")).outcome =
      .returned (some ⟨1, "empty address string is not allowed"⟩) ∧
    (ConvertCoinToERC20FromPacket demoEnv (demoState false (demoPair 17 true false))
      (demoSent 0 "100")).outcome ≠ .returned none := by
  decide

/-- C17 (amended): whenever the conversion feature is disabled, for every packet
data whose sender decodes `ConvertCoinToERC20FromPacket` is a successful no-op:
it returns nil, leaves the state unchanged, reads the feature flag only and
invokes no conversion. -/
theorem ConvertCoinToERC20FromPacket_disabled_noop (env : Env) (st : State)
    (data : FungibleTokenPacketData) (sender : AccAddress)
    (hsender : env.AccAddressFromBech32 data.Sender = .ok sender)
    (hoff : IsERC20Enabled st = false) :
    ConvertCoinToERC20FromPacket env st data = ⟨.returned none, st, [.IsERC20Enabled]⟩ ∧
    (ConvertCoinToERC20FromPacket env st data).calls.countP Call.isConversion = 0 := by
  have hrun : ConvertCoinToERC20FromPacket env st data =
      ⟨.returned none, st, [.IsERC20Enabled]⟩ := by
    simp [ConvertCoinToERC20FromPacket, hsender, hoff]
  rw [hrun]
  exact ⟨rfl, rfl⟩

/-- C17 (amended) at the example refund on a ledger with the feature disabled. -/
theorem ConvertCoinToERC20FromPacket_disabled_noop_witness :
    ConvertCoinToERC20FromPacket demoEnv (demoState false (demoPair 17 true false))
      (demoSent 5 "100") =
      ⟨.returned none, demoState false (demoPair 17 true false), [.IsERC20Enabled]⟩ :=
  (ConvertCoinToERC20FromPacket_disabled_noop demoEnv (demoState false (demoPair 17 true false))
    (demoSent 5 "100") (List.replicate 20 5) rfl rfl).1

/-- C18: for every packet data with a decodable sender, if the registry has no
pair for `data.Denom`, or the pair is disabled, or the pair is a native-coin
pair, then `ConvertCoinToERC20FromPacket` returns nil, leaves the state
unchanged and invokes neither `ConvertCoin` nor the precompile construction or
registration. -/
theorem ConvertCoinToERC20FromPacket_no_eligible_pair (env : Env) (st : State)
    (data : FungibleTokenPacketData) (sender : AccAddress)
    (hsender : env.AccAddressFromBech32 data.Sender = .ok sender)
    (hpair : GetTokenPairID st data.Denom = [] ∨
      (GetTokenPair st (GetTokenPairID st data.Denom)).1.Enabled = false ∨
      (GetTokenPair st (GetTokenPairID st data.Denom)).1.IsNativeCoin = true) :
    (ConvertCoinToERC20FromPacket env st data).outcome = .returned none ∧
    (ConvertCoinToERC20FromPacket env st data).state = st ∧
    (ConvertCoinToERC20FromPacket env st data).calls.countP Call.isConversion = 0 ∧
    (ConvertCoinToERC20FromPacket env st data).calls.countP Call.isConstruction = 0 ∧
    (ConvertCoinToERC20FromPacket env st data).calls.countP Call.isRegistration = 0 := by
  have hexit : ((GetTokenPairID st data.Denom).length == 0) = false →
      (!(GetTokenPair st (GetTokenPairID st data.Denom)).1.Enabled ||
        (GetTokenPair st (GetTokenPairID st data.Denom)).1.IsNativeCoin) = true := by
    intro hlen
    rcases hpair with h | h | h
    · rw [h] at hlen
      exact absurd hlen (by decide)
    · rw [h]; rfl
    · rw [h]; exact Bool.or_true _
  cases hen : IsERC20Enabled st <;>
    cases hmod : IsModuleAccount (GetAccount st sender) <;>
    cases hlen : ((GetTokenPairID st data.Denom).length == 0) <;>
    (try have hx := hexit hlen) <;>
    simp only [ConvertCoinToERC20FromPacket, hsender, hen, hmod, hlen] <;>
    (try simp only [hx]) <;>
    simp [Call.isConversion, Call.isConstruction, Call.isRegistration]

/-- C18 at the example refund on a ledger whose pair is disabled. -/
theorem ConvertCoinToERC20FromPacket_no_eligible_pair_witness :
    (ConvertCoinToERC20FromPacket demoEnv (demoState true (demoPair 17 false false))
      (demoSent 5 "100")).outcome = .returned none :=
  (ConvertCoinToERC20FromPacket_no_eligible_pair demoEnv
    (demoState true (demoPair 17 false false)) (demoSent 5 "100") (List.replicate 20 5) rfl
    (Or.inr (Or.inl rfl))).1

/-- C19: for every packet data whose decoded sender is a module account,
`ConvertCoinToERC20FromPacket` returns nil and leaves the state unchanged
without looking up the registry and without invoking `ConvertCoin`, whatever the
registry holds. -/
theorem ConvertCoinToERC20FromPacket_module_account (env : Env) (st : State)
    (data : FungibleTokenPacketData) (sender : AccAddress) (name : String)
    (hsender : env.AccAddressFromBech32 data.Sender = .ok sender)
    (hmod : GetAccount st sender = some (.ModuleAccount name)) :
    (ConvertCoinToERC20FromPacket env st data).outcome = .returned none ∧
    (ConvertCoinToERC20FromPacket env st data).state = st ∧
    (ConvertCoinToERC20FromPacket env st data).calls.countP Call.isRegistry = 0 ∧
    (ConvertCoinToERC20FromPacket env st data).calls.countP Call.isConversion = 0 := by
  cases hen : IsERC20Enabled st <;>
    simp only [ConvertCoinToERC20FromPacket, hsender, hen, hmod, IsModuleAccount] <;>
    simp [Call.isRegistry, Call.isConversion]

/-- C19 at the example refund sent by the module account of byte 7, on a ledger
with an enabled pair that is not a native-coin pair for the denomination. -/
theorem ConvertCoinToERC20FromPacket_module_account_witness :
    (ConvertCoinToERC20FromPacket demoEnv (demoState true (demoPair 17 true false))
      (demoSent 7 "100")).outcome = .returned none ∧
    (ConvertCoinToERC20FromPacket demoEnv (demoState true (demoPair 17 true false))
      (demoSent 7 "100")).calls.countP Call.isRegistry = 0 :=
  have h := ConvertCoinToERC20FromPacket_module_account demoEnv
    (demoState true (demoPair 17 true false)) (demoSent 7 "100") (List.replicate 20 7)
    "transfer" rfl rfl
  ⟨h.1, h.2.2.1⟩

/-- C20: a conversion failure propagates without retry.  On the conversion step,
whenever `ConvertCoin` returns an error, `ConvertCoinToERC20FromPacket` returns
exactly that error and leaves the state unchanged, its log holds exactly one
`ConvertCoin` call and no telemetry emission. -/
theorem ConvertCoinToERC20FromPacket_conversion_failure (env : Env) (st : State)
    (data : FungibleTokenPacketData) (sender : AccAddress) (pair : TokenPair) (err : Error)
    (hreach : ReachesConversion env st data sender pair)
    (hconv : ConvertCoin env st (refundMsg env data sender) = .error err) :
    (ConvertCoinToERC20FromPacket env st data).outcome = .returned (some err) ∧
    (ConvertCoinToERC20FromPacket env st data).state = st ∧
    (ConvertCoinToERC20FromPacket env st data).calls.filter Call.isConversion =
      [Call.ConvertCoin (refundMsg env data sender)] ∧
    (ConvertCoinToERC20FromPacket env st data).calls.countP Call.isConversion = 1 ∧
    (ConvertCoinToERC20FromPacket env st data).calls.countP Call.isTelemetry = 0 := by
  rw [ConvertCoinToERC20FromPacket_of_reachesConversion env st data sender pair hreach]
  simp only [hconv]
  simp [Call.isConversion, Call.isTelemetry, List.filter]

/-- C20 at the example refund of 900 units by an account that holds 500. -/
theorem ConvertCoinToERC20FromPacket_conversion_failure_witness :
    (ConvertCoinToERC20FromPacket demoEnv (demoState true (demoPair 17 true false))
      (demoSent 5 "900")).outcome = .returned (some ErrInsufficientFunds) ∧
    (ConvertCoinToERC20FromPacket demoEnv (demoState true (demoPair 17 true false))
      (demoSent 5 "900")).calls.countP Call.isTelemetry = 0 :=
  have h := ConvertCoinToERC20FromPacket_conversion_failure demoEnv
    (demoState true (demoPair 17 true false)) (demoSent 5 "900") (List.replicate 20 5)
    (demoPair 17 true false) ErrInsufficientFunds (demo_reachesConversion "900") rfl
  ⟨h.1, h.2.2.2.2⟩

/-! ## Conservation on the refund path -/

/-- A successful conversion moves exactly the amount of the coin: it enters the
contract-callable balance of the receiver, it leaves the ledger-native balance
of the sender, and no other balance changes. -/
theorem ConvertCoin_conserves (env : Env) (st st2 : State) (msg : MsgConvertCoin)
    (h : ConvertCoin env st msg = .ok st2) :
    BalanceOf st2 msg.Coin.Denom msg.Receiver =
      BalanceOf st msg.Coin.Denom msg.Receiver + msg.Coin.Amount ∧
    GetBalance st2 msg.Sender msg.Coin.Denom + msg.Coin.Amount =
      GetBalance st msg.Sender msg.Coin.Denom ∧
    (∀ addr denom, (addr, denom) ≠ (msg.Sender, msg.Coin.Denom) →
      GetBalance st2 addr denom = GetBalance st addr denom) ∧
    (∀ denom account, (denom, account) ≠ (msg.Coin.Denom, msg.Receiver) →
      BalanceOf st2 denom account = BalanceOf st denom account) := by
  unfold ConvertCoin at h
  by_cases hzero : msg.Coin.Amount = 0
  · rw [if_pos hzero] at h
    cases h
    simp [hzero]
  · rw [if_neg hzero] at h
    cases herr : env.conversionError st msg with
    | some err =>
      rw [herr] at h
      exact Except.noConfusion h
    | none =>
      rw [herr] at h
      by_cases hlow : GetBalance st msg.Sender msg.Coin.Denom < msg.Coin.Amount
      · rw [if_pos hlow] at h
        exact Except.noConfusion h
      · simp only [if_neg hlow] at h
        cases h
        refine ⟨?_, ?_, ?_, ?_⟩
        · simp [BalanceOf, List.lookup]
        · simp only [GetBalance, List.lookup, beq_self_eq_true, Option.getD_some]
          have := Nat.le_of_not_lt hlow
          simp only [GetBalance] at this
          omega
        · intro addr denom hne
          have hb : ((addr, denom) == (msg.Sender, msg.Coin.Denom)) = false :=
            beq_false_of_ne hne
          simp [GetBalance, List.lookup, hb]
        · intro denom account hne
          have hb : ((denom, account) == (msg.Coin.Denom, msg.Receiver)) = false :=
            beq_false_of_ne hne
          simp [BalanceOf, List.lookup, hb]

/-- C21: conservation on the refund path.  For every timed-out or failed
transfer that reaches the conversion step and whose conversion succeeds, with
`n` the amount of the sent coin: the refund returns nil, the contract-callable
balance of the sender's 20-byte address increases by exactly `n`, the
ledger-native balance of the sender decreases by exactly `n`, and no other
balance changes, so no amount is created or destroyed. -/
theorem ConvertCoinToERC20FromPacket_conserves (env : Env) (st st2 : State)
    (data : FungibleTokenPacketData) (sender : AccAddress) (pair : TokenPair)
    (hreach : ReachesConversion env st data sender pair)
    (hconv : ConvertCoin env st (refundMsg env data sender) = .ok st2) :
    (ConvertCoinToERC20FromPacket env st data).outcome = .returned none ∧
    (ConvertCoinToERC20FromPacket env st data).state = st2 ∧
    BalanceOf st2 (env.GetSentCoin data.Denom data.Amount).Denom (BytesToAddress sender) =
      BalanceOf st (env.GetSentCoin data.Denom data.Amount).Denom (BytesToAddress sender) +
        (env.GetSentCoin data.Denom data.Amount).Amount ∧
    GetBalance st2 sender (env.GetSentCoin data.Denom data.Amount).Denom +
        (env.GetSentCoin data.Denom data.Amount).Amount =
      GetBalance st sender (env.GetSentCoin data.Denom data.Amount).Denom ∧
    (∀ addr denom, (addr, denom) ≠ (sender, (env.GetSentCoin data.Denom data.Amount).Denom) →
      GetBalance st2 addr denom = GetBalance st addr denom) ∧
    (∀ denom account,
      (denom, account) ≠
        ((env.GetSentCoin data.Denom data.Amount).Denom, BytesToAddress sender) →
      BalanceOf st2 denom account = BalanceOf st denom account) := by
  have hrun := ConvertCoinToERC20FromPacket_of_reachesConversion env st data sender pair hreach
  simp only [hconv] at hrun
  rw [hrun]
  exact ⟨rfl, rfl, ConvertCoin_conserves env st st2 (refundMsg env data sender) hconv⟩

/-- C21 at the example: a timed-out transfer of 500 units of the voucher by the
account of byte 5, which holds 500, raises its contract-callable balance from 0
to 500 and takes 500 from its ledger-native balance. -/
theorem ConvertCoinToERC20FromPacket_conserves_witness :
    BalanceOf (OnTimeoutPacket demoEnv (demoState true (demoPair 17 true false))
      (demoPacket [0, 5, 6] "channel-9") (demoSent 5 "500")).state
      demoVoucher (List.replicate 20 5) = 0 + 500 ∧
    GetBalance (OnTimeoutPacket demoEnv (demoState true (demoPair 17 true false))
      (demoPacket [0, 5, 6] "channel-9") (demoSent 5 "500")).state
      (List.replicate 20 5) demoVoucher + 500 = 500 :=
  have h := ConvertCoinToERC20FromPacket_conserves demoEnv
    (demoState true (demoPair 17 true false))
    (OnTimeoutPacket demoEnv (demoState true (demoPair 17 true false))
      (demoPacket [0, 5, 6] "channel-9") (demoSent 5 "500")).state
    (demoSent 5 "500") (List.replicate 20 5) (demoPair 17 true false)
    (demo_reachesConversion "500") rfl
  ⟨h.2.2.1, h.2.2.2.1⟩

/-- C22: zero-amount no-op.  For every packet data that reaches the conversion
step and whose sent coin has amount 0, `ConvertCoinToERC20FromPacket` returns
nil and leaves the state unchanged. -/
theorem ConvertCoinToERC20FromPacket_zero_amount (env : Env) (st : State)
    (data : FungibleTokenPacketData) (sender : AccAddress) (pair : TokenPair)
    (hreach : ReachesConversion env st data sender pair)
    (hzero : (env.GetSentCoin data.Denom data.Amount).Amount = 0) :
    (ConvertCoinToERC20FromPacket env st data).outcome = .returned none ∧
    (ConvertCoinToERC20FromPacket env st data).state = st := by
  have hconv : ConvertCoin env st (refundMsg env data sender) = .ok st := by
    simp [ConvertCoin, refundMsg, NewMsgConvertCoin, hzero]
  have hrun := ConvertCoinToERC20FromPacket_of_reachesConversion env st data sender pair hreach
  simp only [hconv] at hrun
  rw [hrun]
  exact ⟨rfl, rfl⟩

/-- C22 at the example refund of amount 0. -/
theorem ConvertCoinToERC20FromPacket_zero_amount_witness :
    (ConvertCoinToERC20FromPacket demoEnv (demoState true (demoPair 17 true false))
      (demoSent 5 "0")).state = demoState true (demoPair 17 true false) :=
  (ConvertCoinToERC20FromPacket_zero_amount demoEnv (demoState true (demoPair 17 true false))
    (demoSent 5 "0") (List.replicate 20 5) (demoPair 17 true false)
    (demo_reachesConversion "0") rfl).2

/-! ## Telemetry of the refund path -/

/-- C30: the refund counter is emitted exactly when a conversion completed.  For
every state and packet data the log of `ConvertCoinToERC20FromPacket` holds at
most one telemetry emission, and it holds one if and only if `ConvertCoin` was
invoked and returned no error; the emission is the counter erc20/ibc/error/total;
on every error return and on every return without a `ConvertCoin` call the
counter is not incremented; the counter is emitted only after the returned value
is fixed: whenever it is emitted the refund returns nil. -/
theorem ConvertCoinToERC20FromPacket_telemetry (env : Env) (st : State)
    (data : FungibleTokenPacketData) :
    (ConvertCoinToERC20FromPacket env st data).calls.countP Call.isTelemetry ≤ 1 ∧
    ((ConvertCoinToERC20FromPacket env st data).calls.countP Call.isTelemetry = 1 ↔
      ∃ msg st2, Call.ConvertCoin msg ∈ (ConvertCoinToERC20FromPacket env st data).calls ∧
        ConvertCoin env st msg = .ok st2) ∧
    (∀ c ∈ (ConvertCoinToERC20FromPacket env st data).calls,
      c.isTelemetry = true → c = Call.IncrCounter convertMetric) ∧
    (∀ err, (ConvertCoinToERC20FromPacket env st data).outcome = .returned (some err) →
      (ConvertCoinToERC20FromPacket env st data).calls.countP Call.isTelemetry = 0) ∧
    ((ConvertCoinToERC20FromPacket env st data).calls.countP Call.isConversion = 0 →
      (ConvertCoinToERC20FromPacket env st data).calls.countP Call.isTelemetry = 0) ∧
    ((ConvertCoinToERC20FromPacket env st data).calls.countP Call.isTelemetry = 1 →
      (ConvertCoinToERC20FromPacket env st data).outcome = .returned none) := by
  cases hsender : env.AccAddressFromBech32 data.Sender with
  | error e => simp [ConvertCoinToERC20FromPacket, hsender, Call.isTelemetry]
  | ok sender =>
  cases hen : IsERC20Enabled st with
  | false => simp [ConvertCoinToERC20FromPacket, hsender, hen, Call.isTelemetry]
  | true =>
  cases hmod : IsModuleAccount (GetAccount st sender) with
  | true =>
    simp only [ConvertCoinToERC20FromPacket, hsender, hen, hmod]
    simp [Call.isTelemetry]
  | false =>
  cases hlen : ((GetTokenPairID st data.Denom).length == 0) with
  | true =>
    simp only [ConvertCoinToERC20FromPacket, hsender, hen, hmod, hlen]
    simp [Call.isTelemetry]
  | false =>
  cases hpair : (!(GetTokenPair st (GetTokenPairID st data.Denom)).1.Enabled ||
      (GetTokenPair st (GetTokenPairID st data.Denom)).1.IsNativeCoin) with
  | true =>
    simp only [ConvertCoinToERC20FromPacket, hsender, hen, hmod, hlen, hpair]
    simp [Call.isTelemetry]
  | false =>
  have hreach : ReachesConversion env st data sender
      (GetTokenPair st (GetTokenPairID st data.Denom)).1 := by
    refine ⟨hsender, hen, hmod, ?_, rfl, ?_, ?_⟩
    · intro h
      simp [h] at hlen
    · cases h : (GetTokenPair st (GetTokenPairID st data.Denom)).1.Enabled
      · simp [h] at hpair
      · rfl
    · cases h : (GetTokenPair st (GetTokenPairID st data.Denom)).1.IsNativeCoin
      · rfl
      · simp [h] at hpair
  rw [ConvertCoinToERC20FromPacket_of_reachesConversion env st data sender _ hreach]
  cases hconv : ConvertCoin env st (refundMsg env data sender) with
  | error e =>
    simp only []
    simp [Call.isTelemetry, Call.isConversion, hconv]
  | ok st2 =>
    simp only []
    simp [Call.isTelemetry, Call.isConversion, hconv]

/-! ## Terminal outcomes of the receive callback -/

/-- The path condition fixes the data, the sender and the recipient, and every
test of the decision sequence. -/
theorem PassesChecks_facts (env : Env) (st : State) (packet : Packet)
    (data data2 : FungibleTokenPacketData) (sender recipient sender2 recipient2 : AccAddress)
    (sb rb : String) (pair : TokenPair)
    (hpass : PassesChecks env st packet data2 sender2 recipient2 pair)
    (hdata : env.UnmarshalJSON packet.Data = .ok data)
    (hres : env.GetTransferSenderRecipient packet = .ok (sender, recipient, sb, rb)) :
    data2 = data ∧ sender2 = sender ∧ recipient2 = recipient ∧
    (sender == recipient && !IsEVMChannel st packet.DestinationChannel) = false ∧
    IsModuleAccount (GetAccount st sender) = false ∧
    env.IsSingleHop data.Denom = true ∧
    ((GetTokenPairID st (receivedCoin env packet data).Denom).length == 0) = false ∧
    (!(GetTokenPair st (GetTokenPairID st (receivedCoin env packet data).Denom)).1.Enabled ||
      (GetTokenPair st (GetTokenPairID st
        (receivedCoin env packet data).Denom)).1.IsNativeCoin) = false ∧
    pair = (GetTokenPair st (GetTokenPairID st (receivedCoin env packet data).Denom)).1 := by
  obtain ⟨h1, _, ⟨sb2, rb2, h3⟩, h4, h5, h6, h7, h8, h9, h10⟩ := hpass
  rw [hdata] at h1
  cases h1
  rw [hres] at h3
  cases h3
  subst h8
  refine ⟨rfl, rfl, rfl, selfTransfer_test_false st packet sender recipient h4, h5, h6, ?_, ?_,
    rfl⟩
  · cases hl : GetTokenPairID st (receivedCoin env packet data).Denom with
    | nil => exact absurd hl h7
    | cons a l => rfl
  · rw [h9, h10]
    rfl

/-- The tests of the decision sequence give the path condition. -/
theorem PassesChecks_of_tests (env : Env) (st : State) (packet : Packet)
    (data : FungibleTokenPacketData) (sender recipient : AccAddress) (sb rb : String)
    (hdata : env.UnmarshalJSON packet.Data = .ok data)
    (hen : IsERC20Enabled st = true)
    (hres : env.GetTransferSenderRecipient packet = .ok (sender, recipient, sb, rb))
    (hself : (sender == recipient && !IsEVMChannel st packet.DestinationChannel) = false)
    (hmod : IsModuleAccount (GetAccount st sender) = false)
    (hsingle : env.IsSingleHop data.Denom = true)
    (hlen : ((GetTokenPairID st (receivedCoin env packet data).Denom).length == 0) = false)
    (hpair : (!(GetTokenPair st (GetTokenPairID st
        (receivedCoin env packet data).Denom)).1.Enabled ||
      (GetTokenPair st (GetTokenPairID st
        (receivedCoin env packet data).Denom)).1.IsNativeCoin) = false) :
    PassesChecks env st packet data sender recipient
      (GetTokenPair st (GetTokenPairID st (receivedCoin env packet data).Denom)).1 := by
  refine ⟨hdata, hen, ⟨sb, rb, hres⟩, ?_, hmod, hsingle, ?_, rfl, ?_, ?_⟩
  · intro h
    simp [h.1, h.2] at hself
  · intro h
    simp [h] at hlen
  · cases h : (GetTokenPair st (GetTokenPairID st
      (receivedCoin env packet data).Denom)).1.Enabled
    · simp [h] at hpair
    · rfl
  · cases h : (GetTokenPair st (GetTokenPairID st
      (receivedCoin env packet data).Denom)).1.IsNativeCoin
    · rfl
    · simp [h] at hpair

/-- A failure on the activation path needs the path condition. -/
theorem RecvFailure_cases (env : Env) (st : State) (packet : Packet)
    (data : FungibleTokenPacketData) (sender recipient : AccAddress) (sb rb : String)
    (hdata : env.UnmarshalJSON packet.Data = .ok data)
    (hres : env.GetTransferSenderRecipient packet = .ok (sender, recipient, sb, rb))
    (hfail : RecvFailure env st packet) :
    ∃ pair, PassesChecks env st packet data sender recipient pair ∧
      ((∃ err, env.GetIBCDenomAddress (receivedCoin env packet data).Denom = .error err) ∨
       (∃ denomAddr,
          env.GetIBCDenomAddress (receivedCoin env packet data).Denom = .ok denomAddr ∧
          IsPrecompileRegistered st (queriedAddress env denomAddr) = false ∧
          ((∃ err, NewPrecompile env pair = .error err) ∨
           (∃ newPrecompile err, NewPrecompile env pair = .ok newPrecompile ∧
              AddEVMExtensions env st newPrecompile = .error err)))) := by
  rcases hfail with ⟨err, he⟩ | ⟨_, data2, err, _, he⟩ | ⟨data2, sender2, recipient2, pair, hp, hrest⟩
  · rw [hdata] at he
    exact Except.noConfusion he
  · rw [hres] at he
    exact Except.noConfusion he
  · obtain ⟨h1, h2, h3, _⟩ :=
      PassesChecks_facts env st packet data data2 sender recipient sender2 recipient2 sb rb pair
        hp hdata hres
    subst h1 h2 h3
    exact ⟨pair, hp, hrest⟩

/-- When every derived address has at least 20 bytes, the receive callback ends
in the error acknowledgement of an error exactly on a failure condition, and in
the given acknowledgement otherwise. -/
theorem OnRecvPacket_outcome (env : Env) (st : State) (packet : Packet)
    (ack : Acknowledgement)
    (hwide : ∀ denom denomAddr, env.GetIBCDenomAddress denom = .ok denomAddr →
      20 ≤ denomAddr.length) :
    (RecvFailure env st packet ∧
      ∃ err, (OnRecvPacket env st packet ack).outcome =
        .returned (NewErrorAcknowledgement err)) ∨
    (¬ RecvFailure env st packet ∧ (OnRecvPacket env st packet ack).outcome = .returned ack) := by
  cases hdata : env.UnmarshalJSON packet.Data with
  | error e =>
    left
    exact ⟨Or.inl ⟨e, hdata⟩,
      Wrapf ErrInvalidType "cannot unmarshal ICS-20 transfer packet data",
      by simp [OnRecvPacket, hdata]⟩
  | ok data =>
  cases hen : IsERC20Enabled st with
  | false =>
    right
    refine ⟨?_, by simp [OnRecvPacket, hdata, hen]⟩
    rintro (⟨err, he⟩ | ⟨hen2, _⟩ | ⟨_, _, _, _, hp, _⟩)
    · rw [hdata] at he
      exact Except.noConfusion he
    · rw [hen] at hen2
      exact Bool.noConfusion hen2
    · have := hp.2.1
      rw [hen] at this
      exact Bool.noConfusion this
  | true =>
  cases hres : env.GetTransferSenderRecipient packet with
  | error e =>
    left
    exact ⟨Or.inr (Or.inl ⟨hen, data, e, hdata, hres⟩), e,
      by simp [OnRecvPacket, hdata, hen, hres]⟩
  | ok res =>
  obtain ⟨sender, recipient, sb, rb⟩ := res
  cases hself : (sender == recipient && !IsEVMChannel st packet.DestinationChannel) with
  | true =>
    right
    refine ⟨?_, by simp only [OnRecvPacket, hdata, hen, hres, hself]; simp⟩
    intro hfail
    obtain ⟨pair, hp, _⟩ :=
      RecvFailure_cases env st packet data sender recipient sb rb hdata hres hfail
    have hf := PassesChecks_facts env st packet data data sender recipient sender recipient
      sb rb pair hp hdata hres
    rw [hself] at hf
    exact Bool.noConfusion hf.2.2.2.1
  | false =>
  cases hmod : IsModuleAccount (GetAccount st sender) with
  | true =>
    right
    refine ⟨?_, by simp only [OnRecvPacket, hdata, hen, hres, hself, hmod]; simp⟩
    intro hfail
    obtain ⟨pair, hp, _⟩ :=
      RecvFailure_cases env st packet data sender recipient sb rb hdata hres hfail
    have hf := PassesChecks_facts env st packet data data sender recipient sender recipient
      sb rb pair hp hdata hres
    rw [hmod] at hf
    exact Bool.noConfusion hf.2.2.2.2.1
  | false =>
  cases hsingle : env.IsSingleHop data.Denom with
  | false =>
    right
    refine ⟨?_, by simp only [OnRecvPacket, hdata, hen, hres, hself, hmod, hsingle]; simp⟩
    intro hfail
    obtain ⟨pair, hp, _⟩ :=
      RecvFailure_cases env st packet data sender recipient sb rb hdata hres hfail
    have hf := PassesChecks_facts env st packet data data sender recipient sender recipient
      sb rb pair hp hdata hres
    rw [hsingle] at hf
    exact Bool.noConfusion hf.2.2.2.2.2.1
  | true =>
  cases hlen : ((GetTokenPairID st (receivedCoin env packet data).Denom).length == 0) with
  | true =>
    right
    refine ⟨?_, ?_⟩
    · intro hfail
      obtain ⟨pair, hp, _⟩ :=
        RecvFailure_cases env st packet data sender recipient sb rb hdata hres hfail
      have hf := PassesChecks_facts env st packet data data sender recipient sender recipient
        sb rb pair hp hdata hres
      rw [hlen] at hf
      exact Bool.noConfusion hf.2.2.2.2.2.2.1
    · simp only [receivedCoin] at hlen
      simp only [OnRecvPacket, hdata, hen, hres, hself, hmod, hsingle, hlen]
      simp
  | false =>
  cases hpair : (!(GetTokenPair st (GetTokenPairID st
      (receivedCoin env packet data).Denom)).1.Enabled ||
      (GetTokenPair st (GetTokenPairID st
        (receivedCoin env packet data).Denom)).1.IsNativeCoin) with
  | true =>
    right
    refine ⟨?_, ?_⟩
    · intro hfail
      obtain ⟨pair, hp, _⟩ :=
        RecvFailure_cases env st packet data sender recipient sb rb hdata hres hfail
      have hf := PassesChecks_facts env st packet data data sender recipient sender recipient
        sb rb pair hp hdata hres
      rw [hpair] at hf
      exact Bool.noConfusion hf.2.2.2.2.2.2.2.1
    · simp only [receivedCoin] at hlen hpair
      simp only [OnRecvPacket, hdata, hen, hres, hself, hmod, hsingle, hlen, hpair]
      simp
  | false =>
  have hpass := PassesChecks_of_tests env st packet data sender recipient sb rb hdata hen hres
    hself hmod hsingle hlen hpair
  cases haddr : env.GetIBCDenomAddress (receivedCoin env packet data).Denom with
  | error e =>
    left
    refine ⟨Or.inr (Or.inr ⟨data, sender, recipient, _, hpass, Or.inl ⟨e, haddr⟩⟩), e, ?_⟩
    simp only [receivedCoin] at hlen hpair haddr
    simp only [OnRecvPacket, hdata, hen, hres, hself, hmod, hsingle, hlen, hpair, haddr]
    simp
  | ok denomAddr =>
  have hl := hwide _ _ haddr
  rw [OnRecvPacket_of_passesChecks env st packet ack data sender recipient _ denomAddr
    hpass haddr hl]
  have hrest : RecvFailure env st packet →
      IsPrecompileRegistered st (queriedAddress env denomAddr) = false ∧
      ((∃ err, NewPrecompile env (GetTokenPair st (GetTokenPairID st
          (receivedCoin env packet data).Denom)).1 = .error err) ∨
       (∃ newPrecompile err, NewPrecompile env (GetTokenPair st (GetTokenPairID st
          (receivedCoin env packet data).Denom)).1 = .ok newPrecompile ∧
          AddEVMExtensions env st newPrecompile = .error err)) := by
    intro hfail
    obtain ⟨pair, hp, hcase⟩ :=
      RecvFailure_cases env st packet data sender recipient sb rb hdata hres hfail
    have hf := PassesChecks_facts env st packet data data sender recipient sender recipient
      sb rb pair hp hdata hres
    have hpeq := hf.2.2.2.2.2.2.2.2
    subst hpeq
    rcases hcase with ⟨err, he⟩ | ⟨denomAddr2, he, hnot, hcase2⟩
    · rw [haddr] at he
      exact Except.noConfusion he
    · rw [haddr] at he
      cases he
      exact ⟨hnot, hcase2⟩
  cases hfound : IsPrecompileRegistered st (queriedAddress env denomAddr) with
  | true =>
    right
    refine ⟨?_, by simp⟩
    intro hfail
    have := (hrest hfail).1
    rw [hfound] at this
    exact Bool.noConfusion this
  | false =>
    cases hcons : NewPrecompile env (GetTokenPair st (GetTokenPairID st
        (receivedCoin env packet data).Denom)).1 with
    | error e =>
      left
      exact ⟨Or.inr (Or.inr ⟨data, sender, recipient, _, hpass,
        Or.inr ⟨denomAddr, haddr, hfound, Or.inl ⟨e, hcons⟩⟩⟩), e, by simp⟩
    | ok newPrecompile =>
      cases hreg : AddEVMExtensions env st newPrecompile with
      | error e =>
        left
        refine ⟨Or.inr (Or.inr ⟨data, sender, recipient, _, hpass,
          Or.inr ⟨denomAddr, haddr, hfound, Or.inr ⟨newPrecompile, e, hcons, hreg⟩⟩⟩), e, ?_⟩
        simp only [hreg]
        simp
      | ok st2 =>
        right
        refine ⟨?_, by simp only [hreg]; simp⟩
        intro hfail
        rcases (hrest hfail).2 with ⟨err, he⟩ | ⟨newPrecompile2, err, he, hreg2⟩
        · rw [hcons] at he
          exact Except.noConfusion he
        · rw [hcons] at he
          cases he
          rw [hreg] at hreg2
          exact Except.noConfusion hreg2


/-- An address built by `BytesToAddress` has 20 bytes, whatever the input. -/
theorem BytesToAddress_length (b : List Nat) : (BytesToAddress b).length = 20 := by
  simp only [BytesToAddress]
  split
  · simp only [List.length_append, List.length_replicate, List.length_drop]
    omega
  · simp only [List.length_append, List.length_replicate]
    omega

/-- The derivation of the spec returns 20 bytes whenever it succeeds. -/
theorem GetIBCDenomAddress_wide (hash : String → List Nat) (denom : String)
    (denomAddr : List Nat) (h : GetIBCDenomAddress hash denom = .ok denomAddr) :
    denomAddr.length = 20 := by
  unfold GetIBCDenomAddress at h
  split at h
  · exact Except.noConfusion h
  · cases h
    exact BytesToAddress_length _

/-- Under the path condition, a derived value of fewer than 20 bytes makes the
slice of the receive callback panic. -/
theorem OnRecvPacket_short_address (env : Env) (st : State) (packet : Packet)
    (ack : Acknowledgement) (data : FungibleTokenPacketData) (sender recipient : AccAddress)
    (pair : TokenPair) (denomAddr : List Nat)
    (hpass : PassesChecks env st packet data sender recipient pair)
    (haddr : env.GetIBCDenomAddress (receivedCoin env packet data).Denom = .ok denomAddr)
    (hlen : denomAddr.length < 20) :
    (OnRecvPacket env st packet ack).outcome = .panicked := by
  obtain ⟨h1, h2, ⟨sb, rb, h3⟩, h4, h5, h6, h7, h8, h9, h10⟩ := hpass
  have h4b := selfTransfer_test_false st packet sender recipient h4
  simp only [receivedCoin] at h7 h8 haddr
  subst h8
  simp [OnRecvPacket, h1, h2, h3, h4b, h5, h6, h7, h9, h10, haddr, hlen]

/-- The address derivation of the example library returns 32 bytes. -/
theorem demoEnv_wide (denom : String) (denomAddr : List Nat)
    (h : demoEnv.GetIBCDenomAddress denom = .ok denomAddr) : 20 ≤ denomAddr.length := by
  simp only [demoEnv] at h
  split at h
  · cases h
    simp
  · exact Except.noConfusion h

/-- C28: `OnRecvPacket` has two terminal outcomes.  When every derived
denomination address has at least 20 bytes, for every input the result is the
given acknowledgement or the error acknowledgement of an error; it is the error
acknowledgement of an error if one of the failure conditions holds (the payload
fails to decode; with the feature enabled, sender or receiver fail to resolve;
on the activation path, the address derivation, the precompile construction or
the registration fails) and it is the given acknowledgement otherwise; so for a
given acknowledgement that is no error, the result is an error acknowledgement
if and only if a failure condition holds. -/
theorem OnRecvPacket_two_outcomes (env : Env) (st : State) (packet : Packet)
    (ack : Acknowledgement)
    (hwide : ∀ denom denomAddr, env.GetIBCDenomAddress denom = .ok denomAddr →
      20 ≤ denomAddr.length) :
    ((OnRecvPacket env st packet ack).outcome = .returned ack ∨
      ∃ err, (OnRecvPacket env st packet ack).outcome =
        .returned (NewErrorAcknowledgement err)) ∧
    (RecvFailure env st packet →
      ∃ err, (OnRecvPacket env st packet ack).outcome =
        .returned (NewErrorAcknowledgement err)) ∧
    (¬ RecvFailure env st packet → (OnRecvPacket env st packet ack).outcome = .returned ack) ∧
    (ack.isError = false →
      ((∃ result, (OnRecvPacket env st packet ack).outcome = .returned result ∧
          result.isError = true) ↔ RecvFailure env st packet)) := by
  rcases OnRecvPacket_outcome env st packet ack hwide with ⟨hfail, err, hout⟩ | ⟨hpass, hout⟩
  · refine ⟨Or.inr ⟨err, hout⟩, fun _ => ⟨err, hout⟩, fun h => absurd hfail h, fun _ => ?_⟩
    exact ⟨fun _ => hfail, fun _ => ⟨_, hout, NewErrorAcknowledgement_isError err⟩⟩
  · refine ⟨Or.inl hout, fun h => absurd h hpass, fun _ => hout, fun hack => ?_⟩
    constructor
    · rintro ⟨result, hres, herr⟩
      rw [hout] at hres
      cases hres
      rw [hack] at herr
      exact Bool.noConfusion herr
    · intro h
      exact absurd h hpass

/-- C28 at the example packets: a first receive returns the given
acknowledgement, and a receive with a failing constructor returns an error
acknowledgement. -/
theorem OnRecvPacket_two_outcomes_witness :
    ((OnRecvPacket demoEnv (demoState true (demoPair 17 true false))
        (demoPacket [0, 5, 6] "channel-9") demoAck).outcome = .returned demoAck ∨
      ∃ err, (OnRecvPacket demoEnv (demoState true (demoPair 17 true false))
        (demoPacket [0, 5, 6] "channel-9") demoAck).outcome =
        .returned (NewErrorAcknowledgement err)) ∧
    ∃ err, (OnRecvPacket demoEnvNoConstruction (demoState true (demoPair 17 true false))
      (demoPacket [0, 5, 6] "channel-9") demoAck).outcome =
      .returned (NewErrorAcknowledgement err) :=
  ⟨(OnRecvPacket_two_outcomes demoEnv (demoState true (demoPair 17 true false))
      (demoPacket [0, 5, 6] "channel-9") demoAck demoEnv_wide).1,
   (OnRecvPacket_two_outcomes demoEnvNoConstruction (demoState true (demoPair 17 true false))
      (demoPacket [0, 5, 6] "channel-9") demoAck demoEnv_wide).2.1
      (Or.inr (Or.inr ⟨⟨demoDenom 0, "100", demoBech32 5, demoBech32 6, ""⟩,
        List.replicate 20 5, List.replicate 20 6, demoPair 17 true false,
        ⟨rfl, rfl, ⟨_, _, rfl⟩, fun h => absurd h.1 (by decide), rfl, rfl,
          (by show ([1] : List Nat) ≠ []; decide), rfl, rfl, rfl⟩,
        Or.inr ⟨demoDenomAddr, rfl, by decide,
          Or.inl ⟨⟨2, "error loading the ABI"⟩, rfl⟩⟩⟩))⟩

/-- C29: the 20-byte truncation in `OnRecvPacket` is safe and takes the leading
bytes.  The derivation of the spec returns at least 20 bytes for every
denomination on which it succeeds; with it, the value derived on the activation
path has at least 20 bytes and `OnRecvPacket` panics on no input.  The slice is
what needs the width: on the activation path a derived value of fewer than 20
bytes makes the callback panic, and one of at least 20 bytes does not.  The
address checked for registration is the first 20 bytes of the derived value:
the callback returns the given acknowledgement without constructing an
interface when the text of exactly these bytes is active, and calls the
constructor of the pair when it is not. -/
theorem OnRecvPacket_truncation_safe (env : Env) (hash : String → List Nat) (st : State)
    (packet : Packet) (ack : Acknowledgement) (data : FungibleTokenPacketData)
    (sender recipient : AccAddress) (pair : TokenPair) (denomAddr : List Nat)
    (hpass : PassesChecks env st packet data sender recipient pair)
    (haddr : env.GetIBCDenomAddress (receivedCoin env packet data).Denom = .ok denomAddr) :
    (∀ denom value, GetIBCDenomAddress hash denom = .ok value → 20 ≤ value.length) ∧
    (env.GetIBCDenomAddress = GetIBCDenomAddress hash →
      20 ≤ denomAddr.length ∧
      ∀ st2 packet2 ack2, (OnRecvPacket env st2 packet2 ack2).outcome ≠ .panicked) ∧
    (denomAddr.length < 20 → (OnRecvPacket env st packet ack).outcome = .panicked) ∧
    (20 ≤ denomAddr.length →
      (OnRecvPacket env st packet ack).outcome ≠ .panicked ∧
      (IsPrecompileRegistered st (env.AddressString (denomAddr.take 20)) = true →
        (OnRecvPacket env st packet ack).outcome = .returned ack ∧
        (OnRecvPacket env st packet ack).state = st ∧
        (OnRecvPacket env st packet ack).calls.countP Call.isConstruction = 0) ∧
      (IsPrecompileRegistered st (env.AddressString (denomAddr.take 20)) = false →
        Call.NewPrecompile pair ∈ (OnRecvPacket env st packet ack).calls)) := by
  refine ⟨fun denom value h => le_of_eq (GetIBCDenomAddress_wide hash denom value h).symm,
    ?_, OnRecvPacket_short_address env st packet ack data sender recipient pair denomAddr
      hpass haddr, ?_⟩
  · intro henv
    have hwide : ∀ denom value, env.GetIBCDenomAddress denom = .ok value →
        20 ≤ value.length := by
      intro denom value h
      rw [henv] at h
      exact le_of_eq (GetIBCDenomAddress_wide hash denom value h).symm
    refine ⟨hwide _ _ haddr, ?_⟩
    intro st2 packet2 ack2 hpanic
    rcases OnRecvPacket_outcome env st2 packet2 ack2 hwide with ⟨_, err, hout⟩ | ⟨_, hout⟩
    · rw [hout] at hpanic
      exact Outcome.noConfusion hpanic
    · rw [hout] at hpanic
      exact Outcome.noConfusion hpanic
  · intro hlen
    have htake : (denomAddr.take 20).length = 20 := by
      rw [List.length_take]
      omega
    have hquery : queriedAddress env denomAddr = env.AddressString (denomAddr.take 20) := by
      simp only [queriedAddress, BytesToAddress_of_length (denomAddr.take 20) htake]
    rw [OnRecvPacket_of_passesChecks env st packet ack data sender recipient pair denomAddr
      hpass haddr hlen, hquery]
    cases hfound : IsPrecompileRegistered st (env.AddressString (denomAddr.take 20)) with
    | true => simp [Call.isConstruction]
    | false =>
      cases hcons : NewPrecompile env pair with
      | error e => simp
      | ok newPrecompile =>
        cases hreg : AddEVMExtensions env st newPrecompile with
        | error e =>
          simp only [hreg]
          simp
        | ok st3 =>
          simp only [hreg]
          simp

/-- C29 at the example packet.  With the derivation of the spec over the example
hash the derived value has at least 20 bytes.  With the example library, whose
derived value has 32 bytes, the first 20 bytes differ from the last 20, and on a
ledger where the text of the first 20 bytes is active the receive constructs no
interface. -/
theorem OnRecvPacket_truncation_safe_witness :
    20 ≤ demoDerivedAddr.length ∧
    demoDenomAddr.length = 32 ∧
    demoDenomAddr.take 20 ≠ demoDenomAddr.drop 12 ∧
    (OnRecvPacket demoEnv
      { demoState true (demoPair 17 true false) with
        ActivePrecompiles := [hexString (demoDenomAddr.take 20)] }
      (demoPacket [0, 5, 6] "channel-9") demoAck).calls.countP Call.isConstruction = 0 :=
  ⟨((OnRecvPacket_truncation_safe demoEnvDerived demoHash
      (demoState true (demoPair 17 true false)) (demoPacket [0, 5, 6] "channel-9") demoAck
      ⟨demoDenom 0, "100", demoBech32 5, demoBech32 6, ""⟩
      (List.replicate 20 5) (List.replicate 20 6) (demoPair 17 true false) demoDerivedAddr
      ⟨rfl, rfl, ⟨_, _, rfl⟩, fun h => absurd h.1 (by decide), rfl, rfl,
        (by show ([1] : List Nat) ≠ []; decide), rfl, rfl, rfl⟩
      rfl).2.1 rfl).1,
   by decide, by decide,
   (((OnRecvPacket_truncation_safe demoEnv demoHash
      { demoState true (demoPair 17 true false) with
        ActivePrecompiles := [hexString (demoDenomAddr.take 20)] }
      (demoPacket [0, 5, 6] "channel-9") demoAck
      ⟨demoDenom 0, "100", demoBech32 5, demoBech32 6, ""⟩
      (List.replicate 20 5) (List.replicate 20 6) (demoPair 17 true false) demoDenomAddr
      ⟨rfl, rfl, ⟨_, _, rfl⟩, fun h => absurd h.1 (by decide), rfl, rfl,
        (by show ([1] : List Nat) ≠ []; decide), rfl, rfl, rfl⟩
      rfl).2.2.2 (by decide)).2.1 (by decide)).2.2⟩

/-! ## The ERC20 precompile: claims -/

/-- What a covered bank send does: the sender loses the amount and the receiver
gains it (a send to oneself leaves the balance as it was), no other balance
changes, the receiver has an account afterwards and the authorizations are
untouched. -/
theorem SendCoins_ok (st : State) (sender receiver : AccAddress) (denom : String)
    (amount : Nat) (hbal : amount ≤ GetBalance st sender denom) :
    ∃ st2, SendCoins st sender receiver denom amount = .ok st2 ∧
      (receiver ≠ sender →
        GetBalance st2 sender denom + amount = GetBalance st sender denom ∧
        GetBalance st2 receiver denom = GetBalance st receiver denom + amount) ∧
      (receiver = sender → GetBalance st2 sender denom = GetBalance st sender denom) ∧
      (∀ addr d, (addr, d) ≠ (sender, denom) → (addr, d) ≠ (receiver, denom) →
        GetBalance st2 addr d = GetBalance st addr d) ∧
      (GetAccount st2 receiver).isSome = true ∧
      st2.grants = st.grants := by
  have hlow : ¬ GetBalance st sender denom < amount := Nat.not_lt.mpr hbal
  let st1 : State := { st with
    bankBalances :=
      ((sender, denom), GetBalance st sender denom - amount) :: st.bankBalances }
  let st2 : State := { st1 with
    bankBalances :=
      ((receiver, denom), GetBalance st1 receiver denom + amount) :: st1.bankBalances }
  have hbank : ∀ st3 : State, st3.bankBalances = st2.bankBalances →
      (receiver ≠ sender →
        GetBalance st3 sender denom + amount = GetBalance st sender denom ∧
        GetBalance st3 receiver denom = GetBalance st receiver denom + amount) ∧
      (receiver = sender → GetBalance st3 sender denom = GetBalance st sender denom) ∧
      (∀ addr d, (addr, d) ≠ (sender, denom) → (addr, d) ≠ (receiver, denom) →
        GetBalance st3 addr d = GetBalance st addr d) := by
    intro st3 h3
    refine ⟨?_, ?_, ?_⟩
    · intro hne
      have h1 : ((sender, denom) == (receiver, denom)) = false :=
        beq_false_of_ne (fun h => hne (Prod.mk.inj h).1.symm)
      have h2 : ((receiver, denom) == (sender, denom)) = false :=
        beq_false_of_ne (fun h => hne (Prod.mk.inj h).1)
      constructor
      · simp only [GetBalance, h3, st2, st1, List.lookup, h1, beq_self_eq_true,
          Option.getD_some]
        simp only [GetBalance] at hbal
        omega
      · simp [GetBalance, h3, st2, st1, List.lookup, h2]
    · intro heq
      subst heq
      simp only [GetBalance, h3, st2, st1, List.lookup, beq_self_eq_true, Option.getD_some]
      simp only [GetBalance] at hbal
      omega
    · intro addr d hs hr
      have h1 : ((addr, d) == (sender, denom)) = false := beq_false_of_ne hs
      have h2 : ((addr, d) == (receiver, denom)) = false := beq_false_of_ne hr
      simp [GetBalance, h3, st2, st1, List.lookup, h1, h2]
  by_cases hacc : (GetAccount st2 receiver).isSome = true
  · refine ⟨st2, ?_, ?_⟩
    · simp only [SendCoins, if_neg hlow]
      rw [if_pos hacc]
    · obtain ⟨h1, h2, h3⟩ := hbank st2 rfl
      exact ⟨h1, h2, h3, hacc, rfl⟩
  · refine ⟨{ st2 with accounts := st2.accounts ++ [(receiver, .BaseAccount)] }, ?_, ?_⟩
    · simp only [SendCoins, if_neg hlow]
      rw [if_neg hacc]
    · obtain ⟨h1, h2, h3⟩ := hbank
        { st2 with accounts := st2.accounts ++ [(receiver, .BaseAccount)] } rfl
      refine ⟨h1, h2, h3, ?_, rfl⟩
      have hnone : st.accounts.lookup receiver = none := by
        have : ¬ (st.accounts.lookup receiver).isSome = true := hacc
        cases hl : st.accounts.lookup receiver with
        | none => rfl
        | some a => rw [hl] at this; exact absurd rfl this
      simp [GetAccount, st2, st1, List.lookup_append, hnone, List.lookup]

/-- An uncovered bank send fails with the insufficient-funds error of the
spendable balance. -/
theorem SendCoins_error (st : State) (sender receiver : AccAddress) (denom : String)
    (amount : Nat) (hlow : GetBalance st sender denom < amount) :
    SendCoins st sender receiver denom amount =
      .error (Wrapf ErrInsufficientFunds
        ("spendable balance " ++ Nat.repr (GetBalance st sender denom) ++ denom ++
          " is smaller than " ++ Nat.repr amount ++ denom)) := by
  simp only [SendCoins, if_pos hlow]

/-- C23 as stated fails: a transfer of 100 from the account of byte 5, which
holds 200, to itself succeeds and leaves its balance at 200, neither 100 lower
nor 100 higher. -/
theorem transfer_to_self_keeps_balance :
    (demoToken.transfer (demoTokenState none) (demoAddr 5) (demoAddr 5) 100).err = none ∧
    GetBalance (demoTokenState none) (demoAddr 5) demoVoucher = 200 ∧
    GetBalance (demoToken.transfer (demoTokenState none) (demoAddr 5) (demoAddr 5) 100).state
      (demoAddr 5) demoVoucher = 200 := by
  decide

/-- C23 (amended): for every direct transfer call of amount `a` from a sender
whose token balance is at least `a`, the call succeeds and emits a Transfer
event; when the receiver is not the sender, the sender's balance of the token
denomination decreases by exactly `a` and the receiver's increases by exactly
`a`, whether or not the receiver account existed before (it exists afterwards);
a transfer to the sender itself leaves its balance unchanged; no other balance
changes. -/
theorem transfer_moves_amount (p : Precompile) (st : State) (sender receiver : AccAddress)
    (a : Nat) (hbal : a ≤ GetBalance st sender p.tokenPair.Denom) :
    (p.transfer st sender receiver a).err = none ∧
    (p.transfer st sender receiver a).events = [.Transfer sender receiver a] ∧
    (receiver ≠ sender →
      GetBalance (p.transfer st sender receiver a).state sender p.tokenPair.Denom + a =
        GetBalance st sender p.tokenPair.Denom ∧
      GetBalance (p.transfer st sender receiver a).state receiver p.tokenPair.Denom =
        GetBalance st receiver p.tokenPair.Denom + a) ∧
    (receiver = sender →
      GetBalance (p.transfer st sender receiver a).state sender p.tokenPair.Denom =
        GetBalance st sender p.tokenPair.Denom) ∧
    (∀ addr d, (addr, d) ≠ (sender, p.tokenPair.Denom) →
      (addr, d) ≠ (receiver, p.tokenPair.Denom) →
      GetBalance (p.transfer st sender receiver a).state addr d = GetBalance st addr d) ∧
    (GetAccount (p.transfer st sender receiver a).state receiver).isSome = true := by
  obtain ⟨st2, hsend, h1, h2, h3, h4, _⟩ :=
    SendCoins_ok st sender receiver p.tokenPair.Denom a hbal
  have hrun : p.transfer st sender receiver a =
      ⟨none, st2, [.Transfer sender receiver a]⟩ := by
    simp only [Precompile.transfer, hsend]
  rw [hrun]
  exact ⟨rfl, rfl, h1, h2, h3, h4⟩

/-- C23 (amended) at the test values: the account of byte 5 holds 200 and
transfers 100 to the account of byte 9, which does not exist before. -/
theorem transfer_moves_amount_witness :
    GetAccount (demoTokenState none) (demoAddr 9) = none ∧
    GetBalance (demoToken.transfer (demoTokenState none) (demoAddr 5) (demoAddr 9) 100).state
      (demoAddr 5) demoVoucher + 100 = 200 ∧
    GetBalance (demoToken.transfer (demoTokenState none) (demoAddr 5) (demoAddr 9) 100).state
      (demoAddr 9) demoVoucher = 0 + 100 :=
  have h := (transfer_moves_amount demoToken (demoTokenState none) (demoAddr 5) (demoAddr 9)
    100 (by decide)).2.2.1 (by decide)
  ⟨rfl, h.1, h.2⟩


/-- A key is not found in an association list from which it was filtered out. -/
theorem lookup_filter_ne (key : AccAddress × AccAddress)
    (l : List ((AccAddress × AccAddress) × List Coin)) :
    (l.filter fun g => !(g.1 == key)).lookup key = none := by
  induction l with
  | nil => rfl
  | cons g l ih =>
    obtain ⟨k, v⟩ := g
    by_cases h : k = key
    · subst h
      simp [List.filter_cons, ih]
    · have h2 : (key == k) = false := beq_false_of_ne fun e => h e.symm
      simp [List.filter_cons, h, List.lookup_cons, h2, ih]

/-- A deleted authorization is not found. -/
theorem GetAuthorization_DeleteGrant (st : State) (grantee granter : AccAddress) :
    GetAuthorization (DeleteGrant st grantee granter) grantee granter = none ∧
    GetAuthorizations (DeleteGrant st grantee granter) grantee granter = [] := by
  constructor
  · exact lookup_filter_ne (grantee, granter) st.grants
  · simp [GetAuthorizations, DeleteGrant, List.filter_filter]

/-- A saved authorization is the one authorization of the grantee by the
granter. -/
theorem GetAuthorization_SaveGrant (st : State) (grantee granter : AccAddress)
    (limit : List Coin) :
    GetAuthorization (SaveGrant st grantee granter limit) grantee granter = some limit ∧
    GetAuthorizations (SaveGrant st grantee granter limit) grantee granter = [limit] := by
  constructor
  · simp [GetAuthorization, SaveGrant, List.lookup]
  · simp [GetAuthorizations, SaveGrant, List.filter_cons, List.filter_filter]

/-- The amount of a denomination in a spend limit that starts with it. -/
theorem amountOf_cons_self (denom : String) (a : Nat) (limit : List Coin) :
    amountOf (⟨denom, a⟩ :: limit) denom = a := by
  simp [amountOf, List.find?]

/-- C24 as stated fails: with a balance of 200 and an authorization for exactly
100 of the token, a `transferFrom` of 100 back to the owner leaves the balance
of the owner at 200; with an authorization that also holds a limit of 200 of
another denomination, a `transferFrom` of 100 to a third account leaves the
authorization in place with that other limit; and when the spender is a
contract that a third account (of byte 4) triggers, the covered `transferFrom`
is reverted: no balance moves and the authorization stays. -/
theorem transferFrom_corner_cases :
    (demoToken.transferFrom (demoTokenState (some [⟨demoVoucher, 100⟩]))
      (demoAddr 6) (demoAddr 6) (demoAddr 5) (demoAddr 5) 100).err = none ∧
    GetBalance (demoToken.transferFrom (demoTokenState (some [⟨demoVoucher, 100⟩]))
      (demoAddr 6) (demoAddr 6) (demoAddr 5) (demoAddr 5) 100).state (demoAddr 5) demoVoucher
      = 200 ∧
    amountOf [⟨"aevmos", 200⟩, ⟨demoVoucher, 100⟩] demoVoucher = 100 ∧
    (demoToken.transferFrom (demoTokenState (some [⟨"aevmos", 200⟩, ⟨demoVoucher, 100⟩]))
      (demoAddr 6) (demoAddr 6) (demoAddr 5) (demoAddr 9) 100).err = none ∧
    GetAuthorizations
      (demoToken.transferFrom (demoTokenState (some [⟨"aevmos", 200⟩, ⟨demoVoucher, 100⟩]))
        (demoAddr 6) (demoAddr 6) (demoAddr 5) (demoAddr 9) 100).state (demoAddr 6) (demoAddr 5) =
      [[⟨"aevmos", 200⟩]] ∧
    (demoToken.transferFrom (demoTokenState (some [⟨demoVoucher, 100⟩]))
      (demoAddr 4) (demoAddr 6) (demoAddr 5) (demoAddr 9) 100).err =
      some ⟨1, "execution reverted"⟩ ∧
    GetBalance (demoToken.transferFrom (demoTokenState (some [⟨demoVoucher, 100⟩]))
      (demoAddr 4) (demoAddr 6) (demoAddr 5) (demoAddr 9) 100).state (demoAddr 5) demoVoucher
      = 200 ∧
    GetAuthorizations (demoToken.transferFrom (demoTokenState (some [⟨demoVoucher, 100⟩]))
      (demoAddr 4) (demoAddr 6) (demoAddr 5) (demoAddr 9) 100).state (demoAddr 6) (demoAddr 5)
      = [[⟨demoVoucher, 100⟩]] := by
  decide

/-- C24 (amended): for every owner whose token balance is at least `a` and every
spender whose send authorization from the owner has a spend limit of exactly `a`
for the token, `transferFrom(owner, receiver, a)` called by the spender, in a
transaction signed by the spender itself (a direct call) or by the owner (a call
through a contract), succeeds and emits a Transfer event; when the receiver is
not the owner it decreases the owner's balance by `a` and increases the
receiver's by `a`; it removes the token from the spend limit: an authorization
without a limit for another denomination is deleted (no send authorization from
owner to spender remains), and an authorization with other limits is kept with
exactly those.  In a transaction signed by neither of them the call is reverted
and the state is as before. -/
theorem transferFrom_spends_allowance (p : Precompile) (st : State)
    (origin spender owner receiver : AccAddress) (a : Nat) (limit : List Coin)
    (hgrant : GetAuthorization st spender owner = some limit)
    (hallow : amountOf limit p.tokenPair.Denom = a)
    (hbal : a ≤ GetBalance st owner p.tokenPair.Denom) :
    ((spender = origin ∨ owner = origin) →
      (p.transferFrom st origin spender owner receiver a).err = none ∧
      (p.transferFrom st origin spender owner receiver a).events =
        [.Transfer owner receiver a] ∧
      (receiver ≠ owner →
        GetBalance (p.transferFrom st origin spender owner receiver a).state owner
          p.tokenPair.Denom + a = GetBalance st owner p.tokenPair.Denom ∧
        GetBalance (p.transferFrom st origin spender owner receiver a).state receiver
          p.tokenPair.Denom = GetBalance st receiver p.tokenPair.Denom + a) ∧
      (removeDenom limit p.tokenPair.Denom = [] →
        GetAuthorization (p.transferFrom st origin spender owner receiver a).state spender
          owner = none ∧
        GetAuthorizations (p.transferFrom st origin spender owner receiver a).state spender
          owner = []) ∧
      (removeDenom limit p.tokenPair.Denom ≠ [] →
        GetAuthorizations (p.transferFrom st origin spender owner receiver a).state spender
          owner = [removeDenom limit p.tokenPair.Denom])) ∧
    (limit = [⟨p.tokenPair.Denom, a⟩] → removeDenom limit p.tokenPair.Denom = []) ∧
    (spender ≠ origin → owner ≠ origin →
      p.transferFrom st origin spender owner receiver a =
        ⟨some ErrExecutionReverted, st, []⟩) := by
  obtain ⟨st2, hsend, h1, _, _, _, _⟩ :=
    SendCoins_ok st owner receiver p.tokenPair.Denom a hbal
  have hnot : ¬ amountOf limit p.tokenPair.Denom < a := by omega
  have hleft : subLimit limit p.tokenPair.Denom a = removeDenom limit p.tokenPair.Denom := by
    simp [subLimit, hallow]
  refine ⟨?_, ?_, ?_⟩
  · intro horigin
    have hcall : ¬ (spender ≠ origin ∧ owner ≠ origin) := by
      rintro ⟨hs, ho⟩
      rcases horigin with h | h
      · exact hs h
      · exact ho h
    have hrun : p.transferFrom st origin spender owner receiver a =
        ⟨none,
          if (removeDenom limit p.tokenPair.Denom).isEmpty then DeleteGrant st2 spender owner
          else SaveGrant st2 spender owner (removeDenom limit p.tokenPair.Denom),
          [.Transfer owner receiver a]⟩ := by
      simp only [Precompile.transferFrom, hgrant, if_neg hnot, hsend, if_neg hcall, hleft]
    rw [hrun]
    refine ⟨rfl, rfl, ?_, ?_, ?_⟩
    · intro hne
      cases hempty : (removeDenom limit p.tokenPair.Denom).isEmpty
      · simpa [hempty, SaveGrant, GetBalance] using h1 hne
      · simpa [hempty, DeleteGrant, GetBalance] using h1 hne
    · intro hnil
      simp only [hnil, List.isEmpty_nil, if_true]
      exact GetAuthorization_DeleteGrant st2 spender owner
    · intro hne
      have hempty : (removeDenom limit p.tokenPair.Denom).isEmpty = false := by
        cases hl : removeDenom limit p.tokenPair.Denom with
        | nil => exact absurd hl hne
        | cons c l => rfl
      simp only [hempty, Bool.false_eq_true, if_false]
      exact (GetAuthorization_SaveGrant st2 spender owner _).2
  · intro hl
    subst hl
    simp [removeDenom]
  · intro hs ho
    have hcall : spender ≠ origin ∧ owner ≠ origin := ⟨hs, ho⟩
    simp only [Precompile.transferFrom, hgrant, if_neg hnot, hsend, if_pos hcall]

/-- C24 (amended) at the test values: the owner of byte 5 holds 200, the spender
of byte 6 is authorised for exactly 100, signs the transaction itself and
transfers 100 to the account of byte 9; afterwards no authorization remains. -/
theorem transferFrom_spends_allowance_witness :
    GetBalance (demoToken.transferFrom (demoTokenState (some [⟨demoVoucher, 100⟩]))
      (demoAddr 6) (demoAddr 6) (demoAddr 5) (demoAddr 9) 100).state (demoAddr 5) demoVoucher
      + 100 = 200 ∧
    GetAuthorizations (demoToken.transferFrom (demoTokenState (some [⟨demoVoucher, 100⟩]))
      (demoAddr 6) (demoAddr 6) (demoAddr 5) (demoAddr 9) 100).state (demoAddr 6) (demoAddr 5)
      = [] :=
  have h := (transferFrom_spends_allowance demoToken
    (demoTokenState (some [⟨demoVoucher, 100⟩])) (demoAddr 6) (demoAddr 6) (demoAddr 5)
    (demoAddr 9) 100 [⟨demoVoucher, 100⟩] rfl (by decide) (by decide)).1 (Or.inl rfl)
  ⟨(h.2.2.1 (by decide)).1, (h.2.2.2.1 (by decide)).2⟩


/-- C25 as stated fails: the owner of byte 5 holds 200 and has given no
authorization; a `transferFrom` of 300 by the account of byte 6 meets both "the
balance is below the amount" and "no allowance exists", and it fails with
"authorization not found", which is not an insufficient-funds error. -/
theorem transferFrom_uncovered_and_unauthorized :
    GetBalance (demoTokenState none) (demoAddr 5) demoVoucher < 300 ∧
    GetAuthorization (demoTokenState none) (demoAddr 6) (demoAddr 5) = none ∧
    (demoToken.transferFrom (demoTokenState none) (demoAddr 6) (demoAddr 6) (demoAddr 5)
      (demoAddr 9) 300).err = some ⟨2, "authorization not found"⟩ ∧
    (demoToken.transferFrom (demoTokenState none) (demoAddr 6) (demoAddr 6) (demoAddr 5)
      (demoAddr 9) 300).err ≠
      some (Wrapf ErrInsufficientFunds
        ("spendable balance " ++ Nat.repr 200 ++ demoVoucher ++ " is smaller than " ++
          Nat.repr 300 ++ demoVoucher)) ∧
    ErrNoAuthorizationFound.code ≠ ErrInsufficientFunds.code := by
  decide

/-- C25 (amended): uncovered transfers are rejected, in this order.  A `transfer`
of amount `a` fails with the insufficient-funds error of the spendable balance
when the sender's balance is below `a`.  A `transferFrom`, whoever signed the
transaction, fails with "authorization not found" when the spender has no
authorization from the owner; with "requested amount is more than spend limit"
when it has one whose limit for the token is below `a`; and with the
insufficient-funds error of the spendable balance when the limit covers `a` and
the owner's balance is below `a`.  In each case the state, and so every balance,
is unchanged and no event is emitted. -/
theorem transfers_rejected_when_uncovered (p : Precompile) (st : State) :
    (∀ sender receiver a, GetBalance st sender p.tokenPair.Denom < a →
      p.transfer st sender receiver a =
        ⟨some (Wrapf ErrInsufficientFunds
          ("spendable balance " ++ Nat.repr (GetBalance st sender p.tokenPair.Denom) ++
            p.tokenPair.Denom ++ " is smaller than " ++ Nat.repr a ++ p.tokenPair.Denom)),
          st, []⟩) ∧
    (∀ origin spender owner receiver a, GetAuthorization st spender owner = none →
      p.transferFrom st origin spender owner receiver a =
        ⟨some ErrNoAuthorizationFound, st, []⟩) ∧
    (∀ origin spender owner receiver a limit, GetAuthorization st spender owner = some limit →
      amountOf limit p.tokenPair.Denom < a →
      p.transferFrom st origin spender owner receiver a = ⟨some ErrSpendLimit, st, []⟩) ∧
    (∀ origin spender owner receiver a limit, GetAuthorization st spender owner = some limit →
      a ≤ amountOf limit p.tokenPair.Denom →
      GetBalance st owner p.tokenPair.Denom < a →
      p.transferFrom st origin spender owner receiver a =
        ⟨some (Wrapf ErrInsufficientFunds
          ("spendable balance " ++ Nat.repr (GetBalance st owner p.tokenPair.Denom) ++
            p.tokenPair.Denom ++ " is smaller than " ++ Nat.repr a ++ p.tokenPair.Denom)),
          st, []⟩) ∧
    ErrSpendLimit = ⟨5, "requested amount is more than spend limit: insufficient funds"⟩ ∧
    ErrNoAuthorizationFound.msg = "authorization not found" ∧
    (Wrapf ErrInsufficientFunds "").code = 5 := by
  refine ⟨?_, ?_, ?_, ?_, by decide, rfl, rfl⟩
  · intro sender receiver a hlow
    simp only [Precompile.transfer, SendCoins_error st sender receiver _ a hlow]
  · intro origin spender owner receiver a hnone
    simp only [Precompile.transferFrom, hnone]
  · intro origin spender owner receiver a limit hgrant hlimit
    simp only [Precompile.transferFrom, hgrant, if_pos hlimit]
  · intro origin spender owner receiver a limit hgrant hlimit hlow
    have hnot : ¬ amountOf limit p.tokenPair.Denom < a := by omega
    simp only [Precompile.transferFrom, hgrant, if_neg hnot,
      SendCoins_error st owner receiver _ a hlow]

/-- C25 (amended) at the test values: with a balance of 200, a transfer of 300
fails; a `transferFrom` of 300 under a limit of 100 fails at the spend limit; and
a `transferFrom` of 300 under a limit of 300 fails at the balance. -/
theorem transfers_rejected_when_uncovered_witness :
    (demoToken.transfer (demoTokenState none) (demoAddr 5) (demoAddr 9) 300).state =
      demoTokenState none ∧
    (demoToken.transferFrom (demoTokenState (some [⟨demoVoucher, 100⟩]))
      (demoAddr 6) (demoAddr 6) (demoAddr 5) (demoAddr 9) 300).err = some ErrSpendLimit ∧
    (demoToken.transferFrom (demoTokenState (some [⟨demoVoucher, 300⟩]))
      (demoAddr 6) (demoAddr 6) (demoAddr 5) (demoAddr 9) 300).state =
      demoTokenState (some [⟨demoVoucher, 300⟩]) :=
  ⟨congrArg TokenRun.state
      ((transfers_rejected_when_uncovered demoToken (demoTokenState none)).1
        (demoAddr 5) (demoAddr 9) 300 (by decide)),
   congrArg TokenRun.err
      ((transfers_rejected_when_uncovered demoToken
        (demoTokenState (some [⟨demoVoucher, 100⟩]))).2.2.1
        (demoAddr 6) (demoAddr 6) (demoAddr 5) (demoAddr 9) 300 [⟨demoVoucher, 100⟩] rfl
        (by decide)),
   congrArg TokenRun.state
      ((transfers_rejected_when_uncovered demoToken
        (demoTokenState (some [⟨demoVoucher, 300⟩]))).2.2.2.1
        (demoAddr 6) (demoAddr 6) (demoAddr 5) (demoAddr 9) 300 [⟨demoVoucher, 300⟩] rfl
        (by decide) (by decide))⟩


/-- Removing a denomination from a spend limit keeps the amounts of the others
and leaves nothing of the removed one. -/
theorem amountOf_removeDenom (limit : List Coin) (denom d : String) :
    amountOf (removeDenom limit denom) denom = 0 ∧
    (d ≠ denom → amountOf (removeDenom limit denom) d = amountOf limit d) := by
  constructor
  · induction limit with
    | nil => rfl
    | cons c l ih =>
      by_cases h : c.Denom = denom
      · simpa [removeDenom, List.filter_cons, h] using ih
      · have hb : (c.Denom == denom) = false := beq_false_of_ne h
        simp only [removeDenom, List.filter_cons, hb, Bool.not_false, if_true, amountOf,
          List.find?_cons]
        exact ih
  · intro hne
    induction limit with
    | nil => rfl
    | cons c l ih =>
      by_cases h : c.Denom = denom
      · have hd : (c.Denom == d) = false := beq_false_of_ne (fun e => hne (e.symm.trans h))
        have hb : (c.Denom == denom) = true := by simp [h]
        simp only [removeDenom, List.filter_cons, hb, Bool.not_true, Bool.false_eq_true,
          if_false, amountOf, List.find?_cons, hd]
        exact ih
      · have hb : (c.Denom == denom) = false := beq_false_of_ne h
        simp only [removeDenom, List.filter_cons, hb, Bool.not_false, if_true, amountOf,
          List.find?_cons]
        cases hd : (c.Denom == d)
        · exact ih
        · rfl

/-- Setting the limit of a denomination fixes its amount and keeps the amounts
of the others. -/
theorem amountOf_setLimit (limit : List Coin) (denom d : String) (a : Nat) :
    amountOf (setLimit limit denom a) denom = a ∧
    (d ≠ denom → amountOf (setLimit limit denom a) d = amountOf limit d) := by
  constructor
  · exact amountOf_cons_self denom a _
  · intro hne
    have hd : (denom == d) = false := beq_false_of_ne (fun e => hne e.symm)
    have := (amountOf_removeDenom limit denom d).2 hne
    simpa [setLimit, amountOf, List.find?_cons, hd] using this

/-- C26 as stated fails: an approval of 100 by the account of byte 5 for itself
fails and creates no authorization. -/
theorem approve_self_fails :
    (demoToken.approve (demoTokenState none) (demoAddr 5) (demoAddr 5) 100).err =
      some ⟨7, "grantee and granter should be different"⟩ ∧
    GetAuthorizations
      (demoToken.approve (demoTokenState none) (demoAddr 5) (demoAddr 5) 100).state
      (demoAddr 5) (demoAddr 5) = [] := by
  decide

/-- C26 (amended): `approve` with a positive amount `a` for a grantee other than
the granter sets, not adds to, the spend limit of the token.  The call succeeds
and emits an Approval event; afterwards there is exactly one send authorization
from granter to grantee; its limit for the token denomination is exactly `a`,
whatever limit it had before, and its limit for every other denomination is the
one it had before (none, when there was no authorization); no balance changes. -/
theorem approve_sets_limit (p : Precompile) (st : State) (granter grantee : AccAddress)
    (a : Nat) (hpos : 0 < a) (hne : grantee ≠ granter) :
    (p.approve st granter grantee a).err = none ∧
    (p.approve st granter grantee a).events = [.Approval granter grantee a] ∧
    GetAuthorizations (p.approve st granter grantee a).state grantee granter =
      [setLimit ((GetAuthorization st grantee granter).getD []) p.tokenPair.Denom a] ∧
    amountOf (setLimit ((GetAuthorization st grantee granter).getD []) p.tokenPair.Denom a)
      p.tokenPair.Denom = a ∧
    (∀ d, d ≠ p.tokenPair.Denom →
      amountOf (setLimit ((GetAuthorization st grantee granter).getD []) p.tokenPair.Denom a)
        d = amountOf ((GetAuthorization st grantee granter).getD []) d) ∧
    (p.approve st granter grantee a).state.bankBalances = st.bankBalances := by
  have hzero : ¬ a = 0 := by omega
  have hrun : p.approve st granter grantee a =
      ⟨none,
        SaveGrant st grantee granter
          (setLimit ((GetAuthorization st grantee granter).getD []) p.tokenPair.Denom a),
        [.Approval granter grantee a]⟩ := by
    cases hgrant : GetAuthorization st grantee granter with
    | none =>
      simp only [Precompile.approve, hgrant, if_neg hzero, if_neg hne, Option.getD_none]
      rfl
    | some limit =>
      simp only [Precompile.approve, hgrant, if_neg hzero, if_neg hne, Option.getD_some]
  rw [hrun]
  exact ⟨rfl, rfl, (GetAuthorization_SaveGrant st grantee granter _).2,
    (amountOf_setLimit _ _ p.tokenPair.Denom a).1,
    fun d hd => (amountOf_setLimit _ _ d a).2 hd, rfl⟩

/-- C26 (amended) at the test values: the grantee of byte 6 holds limits of 200
of another denomination and 200 of the token; an approval of 100 leaves one
authorization with 100 of the token and 200 of the other denomination. -/
theorem approve_sets_limit_witness :
    GetAuthorizations
      (demoToken.approve (demoTokenState (some [⟨"aevmos", 200⟩, ⟨demoVoucher, 200⟩]))
        (demoAddr 5) (demoAddr 6) 100).state (demoAddr 6) (demoAddr 5) =
      [[⟨demoVoucher, 100⟩, ⟨"aevmos", 200⟩]] :=
  (approve_sets_limit demoToken (demoTokenState (some [⟨"aevmos", 200⟩, ⟨demoVoucher, 200⟩]))
    (demoAddr 5) (demoAddr 6) 100 (by decide) (by decide)).2.2.1

/-- C27: `approve` with amount zero revokes the allowance of the token.  If the
authorization has a limit for the token and limits for other denominations, the
call succeeds, the token is removed from the spend limit and the others are
kept; if the token was the only limit, the call succeeds and the authorization
is deleted; if no authorization exists, or it has no limit for the token, the
call fails and the state, with every authorization, is unchanged. -/
theorem approve_zero_revokes (p : Precompile) (st : State) (granter grantee : AccAddress) :
    (∀ limit, GetAuthorization st grantee granter = some limit →
      (limit.find? fun c => c.Denom == p.tokenPair.Denom).isSome = true →
      removeDenom limit p.tokenPair.Denom ≠ [] →
      (p.approve st granter grantee 0).err = none ∧
      GetAuthorizations (p.approve st granter grantee 0).state grantee granter =
        [removeDenom limit p.tokenPair.Denom] ∧
      amountOf (removeDenom limit p.tokenPair.Denom) p.tokenPair.Denom = 0 ∧
      ∀ d, d ≠ p.tokenPair.Denom →
        amountOf (removeDenom limit p.tokenPair.Denom) d = amountOf limit d) ∧
    (∀ limit, GetAuthorization st grantee granter = some limit →
      (limit.find? fun c => c.Denom == p.tokenPair.Denom).isSome = true →
      removeDenom limit p.tokenPair.Denom = [] →
      (p.approve st granter grantee 0).err = none ∧
      GetAuthorizations (p.approve st granter grantee 0).state grantee granter = [] ∧
      GetAuthorization (p.approve st granter grantee 0).state grantee granter = none) ∧
    (GetAuthorization st grantee granter = none →
      p.approve st granter grantee 0 = ⟨some ErrNonPositive, st, []⟩) ∧
    (∀ limit, GetAuthorization st grantee granter = some limit →
      (limit.find? fun c => c.Denom == p.tokenPair.Denom).isSome = false →
      p.approve st granter grantee 0 = ⟨some (ErrNoAllowance p.tokenPair.Denom), st, []⟩) := by
  refine ⟨?_, ?_, ?_, ?_⟩
  · intro limit hgrant hfound hrest
    have hnone : ¬ (limit.find? fun c => c.Denom == p.tokenPair.Denom).isNone = true := by
      cases hf : limit.find? fun c => c.Denom == p.tokenPair.Denom with
      | none => rw [hf] at hfound; exact absurd hfound (by decide)
      | some c => simp
    have hempty : (removeDenom limit p.tokenPair.Denom).isEmpty = false := by
      cases hl : removeDenom limit p.tokenPair.Denom with
      | nil => exact absurd hl hrest
      | cons c l => rfl
    have hrun : p.approve st granter grantee 0 =
        ⟨none, SaveGrant st grantee granter (removeDenom limit p.tokenPair.Denom),
          [.Approval granter grantee 0]⟩ := by
      simp only [Precompile.approve, hgrant, if_true, if_neg hnone, hempty,
        Bool.false_eq_true, if_false]
    rw [hrun]
    exact ⟨rfl, (GetAuthorization_SaveGrant st grantee granter _).2,
      (amountOf_removeDenom limit p.tokenPair.Denom p.tokenPair.Denom).1,
      fun d hd => (amountOf_removeDenom limit p.tokenPair.Denom d).2 hd⟩
  · intro limit hgrant hfound hrest
    have hnone : ¬ (limit.find? fun c => c.Denom == p.tokenPair.Denom).isNone = true := by
      cases hf : limit.find? fun c => c.Denom == p.tokenPair.Denom with
      | none => rw [hf] at hfound; exact absurd hfound (by decide)
      | some c => simp
    have hrun : p.approve st granter grantee 0 =
        ⟨none, DeleteGrant st grantee granter, [.Approval granter grantee 0]⟩ := by
      simp only [Precompile.approve, hgrant, if_true, if_neg hnone, hrest,
        List.isEmpty_nil]
    rw [hrun]
    exact ⟨rfl, (GetAuthorization_DeleteGrant st grantee granter).2,
      (GetAuthorization_DeleteGrant st grantee granter).1⟩
  · intro hgrant
    simp only [Precompile.approve, hgrant, if_true]
  · intro limit hgrant hfound
    have hnone : (limit.find? fun c => c.Denom == p.tokenPair.Denom).isNone = true := by
      cases hf : limit.find? fun c => c.Denom == p.tokenPair.Denom with
      | none => rfl
      | some c => rw [hf] at hfound; simp at hfound
    simp only [Precompile.approve, hgrant, if_true, if_pos hnone]

/-- C27 at the test values, for the grantee of byte 6 and the granter of byte 5:
with limits for the token and another denomination the other limit is kept;
with a limit for the token only the authorization is deleted; without an
authorization, and with a limit for another denomination only, the call fails. -/
theorem approve_zero_revokes_witness :
    GetAuthorizations
      (demoToken.approve (demoTokenState (some [⟨"aevmos", 200⟩, ⟨demoVoucher, 100⟩]))
        (demoAddr 5) (demoAddr 6) 0).state (demoAddr 6) (demoAddr 5) =
      [[⟨"aevmos", 200⟩]] ∧
    GetAuthorizations
      (demoToken.approve (demoTokenState (some [⟨demoVoucher, 100⟩]))
        (demoAddr 5) (demoAddr 6) 0).state (demoAddr 6) (demoAddr 5) = [] ∧
    (demoToken.approve (demoTokenState none) (demoAddr 5) (demoAddr 6) 0).err =
      some ⟨1, "cannot approve non-positive values"⟩ ∧
    (demoToken.approve (demoTokenState (some [⟨"aevmos", 200⟩]))
      (demoAddr 5) (demoAddr 6) 0).state = demoTokenState (some [⟨"aevmos", 200⟩]) :=
  ⟨((approve_zero_revokes demoToken
      (demoTokenState (some [⟨"aevmos", 200⟩, ⟨demoVoucher, 100⟩])) (demoAddr 5)
      (demoAddr 6)).1 [⟨"aevmos", 200⟩, ⟨demoVoucher, 100⟩] rfl (by decide) (by decide)).2.1,
   ((approve_zero_revokes demoToken (demoTokenState (some [⟨demoVoucher, 100⟩])) (demoAddr 5)
      (demoAddr 6)).2.1 [⟨demoVoucher, 100⟩] rfl (by decide) (by decide)).2.1,
   congrArg TokenRun.err
     ((approve_zero_revokes demoToken (demoTokenState none) (demoAddr 5)
       (demoAddr 6)).2.2.1 rfl),
   congrArg TokenRun.state
     ((approve_zero_revokes demoToken (demoTokenState (some [⟨"aevmos", 200⟩])) (demoAddr 5)
       (demoAddr 6)).2.2.2 [⟨"aevmos", 200⟩] rfl (by decide))⟩

end Evmos
